import Mathlib

/-!
# terraform-provider-datafyaws: `internal/datafy` and `internal/framework/flex`

A shallow embedding of the repository's Go code and the properties its
specification states about it.

* `internal/datafy/errors.go`  : the `NotFoundError` sentinel and `NotFound`
* `internal/datafy/types.go`   : the `Volume` decorator and `Volume.UnmarshalJSON`
* `internal/datafy/client.go`  : `Client.GetVolume`, `Client.DeleteVolume`
* `internal/framework/flex/flatten.go` : `Flatten` and the `flattenVisitor`

Library code the sources call (Go's `errors`, `encoding/json`, `reflect`, and the
plugin framework's `attr`, `diag`, `basetypes`) is embedded as far as the sources
observe it; each such definition says which library behaviour it stands for.
-/

/-! ## Go error values -/

/-- A Go `error` value other than nil.

* `ident` is what Go's `==` on interface values compares: the dynamic type together
  with the pointer (or comparable value) held. Two nodes with the same `ident` are
  the same error value.
* `msg` is the result of `Error()`.
* `isMethod` is the error's `Is(target error) bool` method when its type declares
  one: it sees the target's identity and message.
* `wraps` is what `Unwrap` yields: `[]` when the type has no `Unwrap` method (or it
  returns nil), `[e]` for `Unwrap() error`, and the listed errors for
  `Unwrap() []error`.

Unwrap trees are finite here; a Go `Unwrap` that never bottoms out makes
`errors.Is` loop and is outside this embedding. -/
inductive GoError where
  | mk (ident : Nat) (msg : String) (isMethod : Option (Nat → String → Bool))
      (wraps : List GoError)

namespace GoError

/-- Identity of the error value. -/
def ident : GoError → Nat
  | mk i _ _ _ => i

/-- Go's `Error()`. -/
def Error : GoError → String
  | mk _ m _ _ => m

/-- The `Is` method, when the error's type has one. -/
def isMethod : GoError → Option (Nat → String → Bool)
  | mk _ _ f _ => f

/-- The errors `Unwrap` yields. -/
def wraps : GoError → List GoError
  | mk _ _ _ w => w

/-- Go's `x.Is(target)` guarded by the type assertion
`err.(interface{ Is(error) bool })`: false when there is no such method. -/
def answersIs (e target : GoError) : Bool :=
  match e.isMethod with
  | some g => g target.ident target.Error
  | none => false

mutual
/-- All error values of the unwrap tree of an error, the error itself first. -/
def tree : GoError → List GoError
  | mk i m f ws => mk i m f ws :: treeList ws
/-- The unwrap trees of a list of errors, concatenated. -/
def treeList : List GoError → List GoError
  | [] => []
  | e :: es => tree e ++ treeList es
end

end GoError

mutual
/-- The loop `is(err, target, targetComparable)` of Go's `errors` package, for a
comparable target: succeed when `err == target`, or when `err` has an `Is` method
that accepts the target; otherwise continue with what `Unwrap` yields. -/
def errorsIsLoop (target : GoError) : GoError → Bool
  | .mk i m f ws =>
    if i = target.ident then true
    else if GoError.answersIs (.mk i m f ws) target then true
    else errorsIsAny target ws
/-- The `for _, err := range x.Unwrap()` part of the loop. -/
def errorsIsAny (target : GoError) : List GoError → Bool
  | [] => false
  | e :: es => if errorsIsLoop target e then true else errorsIsAny target es
end

/-- Go's `errors.Is(err, target)`; `none` is the nil error.
`if err == nil || target == nil { return err == target }`, then the loop. -/
def errorsIs (err target : Option GoError) : Bool :=
  match err, target with
  | none, none => true
  | none, some _ => false
  | some _, none => false
  | some e, some t => errorsIsLoop t e

namespace datafy

/-! ## `internal/datafy/errors.go` -/

/-- The package variable `NotFoundError = errors.New("couldn't find resource")`: a
pointer to an `errorString`, with neither an `Is` nor an `Unwrap` method. Its
identity is the address of that one allocation. -/
def NotFoundError : GoError :=
  .mk 0 "couldn't find resource" none []

/-- `func NotFound(err error) bool { return errors.Is(err, NotFoundError) }` -/
def NotFound (err : Option GoError) : Bool :=
  errorsIs err (some NotFoundError)

/-- The statement "err is the sentinel itself, or an error whose unwrap chain
reaches that very sentinel": some error value of the unwrap tree is identical to
`NotFoundError`. False for the nil error. -/
def reachesSentinel (err : Option GoError) : Bool :=
  match err with
  | none => false
  | some e => e.tree.any (fun n => n.ident == NotFoundError.ident)

/-- An error distinct from the sentinel, wrapping nothing, that carries the
sentinel's message text and whose `Is` method matches targets by message. -/
def lookalike : GoError :=
  .mk 1 "couldn't find resource" (some (fun _ m => m == "couldn't find resource")) []

/-- An error distinct from the sentinel with the same message and no methods
beyond `Error`. -/
def sameText : GoError :=
  .mk 2 "couldn't find resource" none []

end datafy

/-! ## `encoding/json`, as `Volume.UnmarshalJSON` uses it -/

/-- A JSON text after scanning. Object members keep their order and duplicates. -/
inductive JsonValue where
  | null
  | bool (b : Bool)
  | number (literal : String)
  | string (s : String)
  | array (items : List JsonValue)
  | object (members : List (String × JsonValue))

/-- The parts of Go's `encoding/json` that are taken as given.

* `parse` scans the input bytes: a `SyntaxError`, or the JSON value read;
* `foldName` is the case folding of the case-insensitive key match;
* `typeError` builds the `UnmarshalTypeError` for a JSON value that does not fit
  the Go value it is decoded into. -/
structure JsonLib where
  parse : List Nat → Except GoError JsonValue
  foldName : String → String
  typeError : JsonValue → GoError

/-- The anonymous struct `iac` that `UnmarshalJSON` decodes into. The default
values are Go's zero values, so `{}` is the literal `struct{...}{}`. -/
structure Iac where
  VolumeId : String := ""
  IsManaged : Bool := false
  IsDatafied : Bool := false
  IsReplacement : Bool := false
  deriving DecidableEq, Repr

/-- The fields of `iac`, in declaration order. -/
inductive IacField where
  | VolumeId
  | IsManaged
  | IsDatafied
  | IsReplacement
  deriving DecidableEq, Repr

/-- The `json:"..."` tag of each field of `iac`. -/
def IacField.jsonName : IacField → String
  | .VolumeId => "volumeId"
  | .IsManaged => "isManaged"
  | .IsDatafied => "isDatafied"
  | .IsReplacement => "isReplacement"

/-- The fields of `iac` in declaration order. -/
def iacFields : List IacField :=
  [.VolumeId, .IsManaged, .IsDatafied, .IsReplacement]

/-- The field an object key is decoded into: `encoding/json` prefers an exact
match of the key with a field's JSON name and otherwise takes the first field
whose name equals the key after case folding. -/
def findField (lib : JsonLib) (key : String) : Option IacField :=
  match iacFields.find? (fun f => f.jsonName == key) with
  | some f => some f
  | none => iacFields.find? (fun f => lib.foldName f.jsonName == lib.foldName key)

/-- Decoder state: the struct being filled and the first saved type error. -/
structure DecodeState where
  iac : Iac
  savedError : Option GoError

/-- `d.saveError(err)`: only the first error is kept. -/
def DecodeState.saveError (st : DecodeState) (err : GoError) : DecodeState :=
  match st.savedError with
  | some _ => st
  | none => { st with savedError := some err }

/-- Decoding of one object member into `iac`. A key that matches no field is
skipped; JSON `null` leaves a string or bool field as it is; a string goes into
the string field and a boolean into a bool field; every other value is a type
error, which is saved while decoding goes on. -/
def decodeMember (lib : JsonLib) (st : DecodeState) (kv : String × JsonValue) :
    DecodeState :=
  match findField lib kv.1 with
  | none => st
  | some f =>
    match f, kv.2 with
    | _, .null => st
    | .VolumeId, .string s => { st with iac := { st.iac with VolumeId := s } }
    | .IsManaged, .bool b => { st with iac := { st.iac with IsManaged := b } }
    | .IsDatafied, .bool b => { st with iac := { st.iac with IsDatafied := b } }
    | .IsReplacement, .bool b => { st with iac := { st.iac with IsReplacement := b } }
    | _, v => st.saveError (lib.typeError v)

/-- Go's `json.Unmarshal(data, &iac)`: the error returned and the struct afterwards.
A syntax error leaves the struct alone; the document `null` is accepted and has no
effect; an object is decoded member by member; any other document is a type
error. -/
def jsonUnmarshal (lib : JsonLib) (data : List Nat) (iac : Iac) : Option GoError × Iac :=
  match lib.parse data with
  | .error e => (some e, iac)
  | .ok .null => (none, iac)
  | .ok (.object members) =>
    let st := members.foldl (decodeMember lib) { iac := iac, savedError := none }
    (st.savedError, st.iac)
  | .ok v => (some (lib.typeError v), iac)

/-- One step of reading what a document says about field `f`: a member whose
value is not `null` and whose key is matched to `f` replaces what came before. -/
def payloadStep (lib : JsonLib) (f : IacField) (acc : Option JsonValue)
    (kv : String × JsonValue) : Option JsonValue :=
  match kv.2 with
  | .null => acc
  | v => if findField lib kv.1 = some f then some v else acc

/-- What a document says about a field, in the decoder's reading: the value of
the last member whose key is matched to the field and whose value is not `null`;
`none` when the document has no such member. -/
def payloadValue (lib : JsonLib) (members : List (String × JsonValue)) (f : IacField) :
    Option JsonValue :=
  members.foldl (payloadStep lib f) none

/-- The string a document gives for a field, the empty string when it gives none. -/
def payloadString (o : Option JsonValue) : String :=
  match o with
  | some (.string s) => s
  | _ => ""

/-- The boolean a document gives for a field, false when it gives none. -/
def payloadBool (o : Option JsonValue) : Bool :=
  match o with
  | some (.bool b) => b
  | _ => false

/-- The struct agrees with what the members read so far say about field `f`. -/
def fieldAgrees (iac : Iac) (f : IacField) (acc : Option JsonValue) : Prop :=
  match f with
  | .VolumeId => iac.VolumeId = payloadString acc
  | .IsManaged => iac.IsManaged = payloadBool acc
  | .IsDatafied => iac.IsDatafied = payloadBool acc
  | .IsReplacement => iac.IsReplacement = payloadBool acc

namespace datafy

/-! ## `internal/datafy/types.go` -/

/-- The SDK's `types.Volume` (EC2), of which this package touches only `VolumeId`
(a `*string`); its other fields keep their zero values and are left out. -/
structure AwsVolume where
  VolumeId : Option String
  deriving DecidableEq, Repr

set_option linter.dupNamespace false in
/-- `type Volume struct { *types.Volume; IsManaged, IsDatafied, IsReplacement bool }` -/
structure Volume where
  Volume : Option AwsVolume
  IsManaged : Bool
  IsDatafied : Bool
  IsReplacement : Bool
  deriving DecidableEq, Repr

/-- `func (v *Volume) UnmarshalJSON(data []byte) error`: the error returned and the
receiver afterwards. -/
def Volume.UnmarshalJSON (lib : JsonLib) (v : datafy.Volume) (data : List Nat) :
    Option GoError × datafy.Volume :=
  let iac : Iac := {}
  match jsonUnmarshal lib data iac with
  | (some err, _) => (some err, v)
  | (none, iac) =>
    (none,
      { Volume := some { VolumeId := some iac.VolumeId }
        IsManaged := iac.IsManaged
        IsDatafied := iac.IsDatafied
        IsReplacement := iac.IsReplacement })

/-! ## `internal/datafy/client.go` -/

/-- Modelled from the spec: the volume record of the external service client
(`iacgateway`), whose declaration is not among the sources. The spec gives the
payload shape `{volumeId, isManaged, isDatafied, isReplacement}`. -/
structure IacVolume where
  VolumeId : String
  IsManaged : Bool
  IsDatafied : Bool
  IsReplacement : Bool
  deriving DecidableEq, Repr

/-- The external `iacgateway.AWSClient`. Its calls reach a remote service, so each
takes and returns the state `σ` of the world outside. `GetVolume` returns a
reference to a volume record (`none` is nil) and an error. -/
structure AWSClient (σ : Type) where
  GetVolume : String → σ → (Option IacVolume × Option GoError) × σ
  DeleteVolume : String → Bool → σ → Option GoError × σ

/-- Modelled from the spec: the client configuration, declared outside the sources;
the spec names only the bearer token. -/
structure Config where
  Token : String
  deriving DecidableEq, Repr

/-- `type Client struct { config Config; client *iacgateway.AWSClient }` -/
structure Client (σ : Type) where
  config : Config
  client : AWSClient σ

/-- What stops a Go call short of returning. -/
inductive Panic where
  | nilDereference
  deriving DecidableEq, Repr

/-- `func (c *Client) GetVolume(volumeId string) (*Volume, error)`.
When the underlying call reports no error, the fields of its volume record are
read; reading them through a nil reference panics. -/
def Client.GetVolume {σ : Type} (c : Client σ) (volumeId : String) (w : σ) :
    Except Panic ((Option Volume × Option GoError) × σ) :=
  match c.client.GetVolume volumeId w with
  | ((_, some err), w1) => .ok ((none, some err), w1)
  | ((none, none), _) => .error .nilDereference
  | ((some volume, none), w1) =>
    .ok ((some
      { Volume := some { VolumeId := some volume.VolumeId }
        IsManaged := volume.IsManaged
        IsDatafied := false
        IsReplacement := volume.IsReplacement }, none), w1)

/-- `func (c *Client) DeleteVolume(volumeId string, finalSnapshot bool) error` -/
def Client.DeleteVolume {σ : Type} (c : Client σ) (volumeId : String)
    (finalSnapshot : Bool) (w : σ) : Option GoError × σ :=
  c.client.DeleteVolume volumeId finalSnapshot w

/-! ### Sample inputs -/

/-- The bytes of the JSON text `{"VOLUMEID":"vol-1"}`. -/
def upperKeyText : List Nat :=
  [123, 34, 86, 79, 76, 85, 77, 69, 73, 68, 34, 58, 34, 118, 111, 108, 45, 49, 34, 125]

/-- The members of the JSON text `{"VOLUMEID":"vol-1"}`. -/
def upperKeyMembers : List (String × JsonValue) :=
  [("VOLUMEID", .string "vol-1")]

/-- The error value standing for what the JSON library reports. -/
def jsonFailure : GoError :=
  .mk 3 "json: cannot decode" none []

/-- An instance of the JSON library for texts with ASCII keys, on which Go's case
folding is upper-casing of the letters a to z. Its scanner knows the one text
`upperKeyText`. -/
def asciiJson : JsonLib where
  parse := fun data =>
    if data = upperKeyText then .ok (.object upperKeyMembers) else .error jsonFailure
  foldName := fun s => String.mk (s.data.map Char.toUpper)
  typeError := fun _ => jsonFailure

/-- A receiver holding values from an earlier request. -/
def staleVolume : Volume :=
  { Volume := some { VolumeId := some "vol-0" }
    IsManaged := true
    IsDatafied := true
    IsReplacement := true }

/-- An error of the external service. -/
def serviceDown : GoError :=
  .mk 4 "iacgateway: service unavailable" none []

/-- An external client whose every call fails with `serviceDown`; the outside
state counts the calls made. -/
def failingService : AWSClient Nat where
  GetVolume := fun _ n => ((none, some serviceDown), n + 1)
  DeleteVolume := fun _ _ n => (some serviceDown, n + 1)

/-- An external client that knows every volume as managed and datafied. -/
def datafiedService : AWSClient Nat where
  GetVolume := fun volumeId n =>
    ((some { VolumeId := volumeId, IsManaged := true, IsDatafied := true,
             IsReplacement := false }, none), n + 1)
  DeleteVolume := fun _ _ n => (none, n + 1)

end datafy

/-! ## `reflect`, `diag` and `attr`, as `flatten.go` uses them -/

/-- `fmt.Errorf` without `%w` (and `errors.New`): a fresh error value, allocated at
`addr`, with the formatted text. -/
def fmtErrorf (addr : Nat) (text : String) : GoError :=
  .mk addr text none []

/-- `fmt.Errorf` with one `%w` operand: a fresh error value, allocated at `addr`,
whose `Unwrap` returns the operand. -/
def fmtErrorfWrap (addr : Nat) (text : String) (err : GoError) : GoError :=
  .mk addr text none [err]

namespace flex

/-- Go's `reflect.Kind`. -/
inductive Kind where
  | invalid | bool | int | int8 | int16 | int32 | int64
  | uint | uint8 | uint16 | uint32 | uint64 | uintptr
  | float32 | float64 | complex64 | complex128
  | array | chan | func | interface | map | ptr | slice | string | struct
  | unsafePointer
  deriving DecidableEq, Repr

/-- `Kind.String()`, which `%s` prints. -/
def Kind.name : Kind → String
  | .invalid => "invalid" | .bool => "bool" | .int => "int" | .int8 => "int8"
  | .int16 => "int16" | .int32 => "int32" | .int64 => "int64" | .uint => "uint"
  | .uint8 => "uint8" | .uint16 => "uint16" | .uint32 => "uint32"
  | .uint64 => "uint64" | .uintptr => "uintptr" | .float32 => "float32"
  | .float64 => "float64" | .complex64 => "complex64" | .complex128 => "complex128"
  | .array => "array" | .chan => "chan" | .func => "func"
  | .interface => "interface" | .map => "map" | .ptr => "ptr" | .slice => "slice"
  | .string => "string" | .struct => "struct" | .unsafePointer => "unsafe.Pointer"

/-- The kinds `visit` has a case for. -/
def Kind.dispatched : Kind → Bool
  | .bool | .float32 | .float64 | .int32 | .int64 | .string | .ptr | .slice | .map => true
  | _ => false

/-- The pointee kinds `pointer` has a case for. -/
def Kind.pointee : Kind → Bool
  | .bool | .float32 | .float64 | .int32 | .int64 | .string | .struct => true
  | _ => false

/-- An IEEE-754 binary64 value, given by its bit pattern: bit 63 is the sign, bits
62 to 52 the exponent, bits 51 to 0 the fraction. The visitor copies such values
and never computes with them. -/
structure Float64 where
  bits : Nat
  deriving DecidableEq, Repr

/-- Whether the value is a NaN: the exponent is all ones and the fraction is not
zero. -/
def Float64.isNaN (f : Float64) : Bool :=
  (f.bits / 2 ^ 52) % 2048 == 2047 && f.bits % 2 ^ 52 != 0

/-- A source value of kind `Ptr`, by pointee type; `none` is the nil pointer.
A pointee of kind float32 is given by the float64 that `Float()` returns for it
(Go widens a float32 exactly). `other` is a pointer to a type of any further
kind. -/
inductive PtrValue where
  | bool (p : Option Bool)
  | float32 (p : Option Float64)
  | float64 (p : Option Float64)
  | int32 (p : Option Int)
  | int64 (p : Option Int)
  | string (p : Option String)
  | struct (isNil : Bool)
  | other (elem : Kind) (isNil : Bool) (h : elem.pointee = false)

/-- A source value of kind `Slice`; `none` is the nil slice. `other` is a slice of
any further type: its element kind and, for a pointer element, the kind pointed
to (not looked at otherwise). -/
inductive SliceValue where
  | strings (xs : Option (List String))
  | stringPtrs (xs : Option (List (Option String)))
  | other (elem elemElem : Kind) (isNil : Bool)

/-- A source value of kind `Map`; `none` is the nil map. `other` is a map of any
further type: its key kind, element kind and, for a pointer element, the kind
pointed to (not looked at otherwise). -/
inductive MapValue where
  | stringString (m : Option (List (String × String)))
  | stringPtrString (m : Option (List (String × Option String)))
  | other (key elem elemElem : Kind) (isNil : Bool)

/-- A source `reflect.Value` (`valFrom`). A float32 is given by the float64 that
`Float()` returns for it. `other` is a value of a kind `visit` has no case for;
the zero `Value` is `other .invalid`. -/
inductive Value where
  | bool (b : Bool)
  | float32 (f : Float64)
  | float64 (f : Float64)
  | int32 (i : Int)
  | int64 (i : Int)
  | string (s : String)
  | ptr (p : PtrValue)
  | slice (s : SliceValue)
  | map (m : MapValue)
  | other (k : Kind) (h : k.dispatched = false)

/-- A Go interface value (`any`) as `Value.Interface()` returns it for a map or
slice: nil, or a dynamic type together with its value. -/
inductive Iface where
  | nil
  | mapStringString (m : Option (List (String × String)))
  | mapStringPtrString (m : Option (List (String × Option String)))
  | sliceString (xs : Option (List String))
  | sliceStringPtr (xs : Option (List (Option String)))
  | otherType

/-- What stops a Go call short of returning. -/
inductive Panic where
  | reflectKind
  | reflectSet
  | typeAssertion
  | bigNaN
  deriving DecidableEq, Repr

/-- The zero `reflect.Value`. -/
def Value.zero : Value :=
  .other .invalid rfl

/-- `Value.Kind()`. -/
def Value.kind : Value → Kind
  | .bool _ => .bool
  | .float32 _ => .float32
  | .float64 _ => .float64
  | .int32 _ => .int32
  | .int64 _ => .int64
  | .string _ => .string
  | .ptr _ => .ptr
  | .slice _ => .slice
  | .map _ => .map
  | .other k _ => k

/-- `Value.Bool()`: panics unless the kind is `Bool`. -/
def Value.getBool : Value → Except Panic Bool
  | .bool b => .ok b
  | _ => .error .reflectKind

/-- `Value.Float()`: panics unless the kind is `Float32` or `Float64`. -/
def Value.getFloat : Value → Except Panic Float64
  | .float32 f => .ok f
  | .float64 f => .ok f
  | _ => .error .reflectKind

/-- `Value.Int()`: the value as an int64; panics unless the kind is a signed
integer kind (of which `Int32` and `Int64` are dispatched). -/
def Value.getInt : Value → Except Panic Int
  | .int32 i => .ok i
  | .int64 i => .ok i
  | _ => .error .reflectKind

/-- `Value.String()`: the string held. For a value of another kind Go does not
panic but renders `<T Value>` with the type `T`, rendered here by its kind. -/
def Value.getString : Value → String
  | .string s => s
  | v => "<" ++ v.kind.name ++ " Value>"

/-- `Value.IsNil()`: panics for kinds that cannot be nil. -/
def Value.isNil : Value → Except Panic Bool
  | .ptr (.bool p) => .ok p.isNone
  | .ptr (.float32 p) => .ok p.isNone
  | .ptr (.float64 p) => .ok p.isNone
  | .ptr (.int32 p) => .ok p.isNone
  | .ptr (.int64 p) => .ok p.isNone
  | .ptr (.string p) => .ok p.isNone
  | .ptr (.struct isNil) => .ok isNil
  | .ptr (.other _ isNil _) => .ok isNil
  | .slice (.strings xs) => .ok xs.isNone
  | .slice (.stringPtrs xs) => .ok xs.isNone
  | .slice (.other _ _ isNil) => .ok isNil
  | .map (.stringString m) => .ok m.isNone
  | .map (.stringPtrString m) => .ok m.isNone
  | .map (.other _ _ _ isNil) => .ok isNil
  | _ => .error .reflectKind

/-- `Value.Elem()` of a pointer: the value pointed to, the zero `Value` for a nil
pointer. The visitor reads the pointee only for the pointee kinds bool, float,
int and string; a pointee of another kind is given by its kind alone (by the zero
`Value` where `Value` has the kind under a constructor with contents). Panics for
values that are not pointers. -/
def Value.elem : Value → Except Panic Value
  | .ptr (.bool (some b)) => .ok (.bool b)
  | .ptr (.float32 (some f)) => .ok (.float32 f)
  | .ptr (.float64 (some f)) => .ok (.float64 f)
  | .ptr (.int32 (some i)) => .ok (.int32 i)
  | .ptr (.int64 (some i)) => .ok (.int64 i)
  | .ptr (.string (some s)) => .ok (.string s)
  | .ptr (.struct false) => .ok (.other .struct rfl)
  | .ptr (.other elem false _) =>
    if h : elem.dispatched = false then .ok (.other elem h) else .ok Value.zero
  | .ptr _ => .ok Value.zero
  | _ => .error .reflectKind

/-- `Value.Type().Elem().Kind()`: the element kind of a pointer, slice or map type.
Panics for values of the other kinds embedded here. -/
def Value.typeElemKind : Value → Except Panic Kind
  | .ptr (.bool _) => .ok .bool
  | .ptr (.float32 _) => .ok .float32
  | .ptr (.float64 _) => .ok .float64
  | .ptr (.int32 _) => .ok .int32
  | .ptr (.int64 _) => .ok .int64
  | .ptr (.string _) => .ok .string
  | .ptr (.struct _) => .ok .struct
  | .ptr (.other elem _ _) => .ok elem
  | .slice (.strings _) => .ok .string
  | .slice (.stringPtrs _) => .ok .ptr
  | .slice (.other elem _ _) => .ok elem
  | .map (.stringString _) => .ok .string
  | .map (.stringPtrString _) => .ok .ptr
  | .map (.other _ elem _ _) => .ok elem
  | _ => .error .reflectKind

/-- `Value.Type().Elem().Elem().Kind()` for a slice or map whose element type is a
pointer type. -/
def Value.typeElemElemKind : Value → Except Panic Kind
  | .slice (.stringPtrs _) => .ok .string
  | .slice (.other .ptr elemElem _) => .ok elemElem
  | .map (.stringPtrString _) => .ok .string
  | .map (.other _ .ptr elemElem _) => .ok elemElem
  | _ => .error .reflectKind

/-- `Value.Type().Key().Kind()`: panics unless the value is a map. -/
def Value.typeKeyKind : Value → Except Panic Kind
  | .map (.stringString _) => .ok .string
  | .map (.stringPtrString _) => .ok .string
  | .map (.other key _ _ _) => .ok key
  | _ => .error .reflectKind

/-- `Value.Interface()` for a map or slice value: an interface value holding the
value under its own type. It is not the nil interface even when the map or slice
held is nil. For the zero `Value` `Interface()` panics; for the remaining kinds
the dynamic type is not told apart. -/
def Value.interface : Value → Except Panic Iface
  | .map (.stringString m) => .ok (.mapStringString m)
  | .map (.stringPtrString m) => .ok (.mapStringPtrString m)
  | .slice (.strings xs) => .ok (.sliceString xs)
  | .slice (.stringPtrs xs) => .ok (.sliceStringPtr xs)
  | .other .invalid _ => .error .reflectKind
  | _ => .ok .otherType

/-- Go's `vFrom != nil` on an interface value. -/
def Iface.notNil : Iface → Bool
  | .nil => false
  | _ => true

/-- The type assertion `vFrom.(map[string]string)`. -/
def Iface.assertMapStringString : Iface → Except Panic (Option (List (String × String)))
  | .mapStringString m => .ok m
  | _ => .error .typeAssertion

/-- The type assertion `vFrom.(map[string]*string)`. -/
def Iface.assertMapStringPtrString :
    Iface → Except Panic (Option (List (String × Option String)))
  | .mapStringPtrString m => .ok m
  | _ => .error .typeAssertion

/-- The type assertion `vFrom.Interface().([]string)`. -/
def Iface.assertSliceString : Iface → Except Panic (Option (List String))
  | .sliceString xs => .ok xs
  | _ => .error .typeAssertion

/-- The type assertion `vFrom.Interface().([]*string)`. -/
def Iface.assertSliceStringPtr : Iface → Except Panic (Option (List (Option String)))
  | .sliceStringPtr xs => .ok xs
  | _ => .error .typeAssertion

/-! ### `diag` -/

/-- The framework's `diag.Severity`. -/
inductive Severity where
  | Invalid
  | Error
  | Warning
  deriving DecidableEq, Repr

/-- A `diag.Diagnostic`: what `Equal` compares. -/
structure Diagnostic where
  severity : Severity
  summary : String
  detail : String
  deriving DecidableEq, Repr

/-- `diag.NewErrorDiagnostic(summary, detail)`. -/
def NewErrorDiagnostic (summary detail : String) : Diagnostic :=
  { severity := .Error, summary := summary, detail := detail }

/-- `diag.Diagnostics.Contains`. -/
def DiagnosticsContains (diags : List Diagnostic) (d : Diagnostic) : Bool :=
  diags.any (fun x => x == d)

/-- `diag.Diagnostics.Append(in...)`: adds, in order, the diagnostics that are not
already contained. (A `diag.Diagnostics` is a list of diagnostics here; nil
entries, which `Append` skips, do not occur.) -/
def DiagnosticsAppend (diags more : List Diagnostic) : List Diagnostic :=
  more.foldl (fun acc d => if DiagnosticsContains acc d then acc else acc ++ [d]) diags

/-- `diag.Diagnostics.HasError`. -/
def DiagnosticsHasError (diags : List Diagnostic) : Bool :=
  diags.any (fun d => d.severity == .Error)

/-! ### `attr` and `basetypes` -/

/-- An `attr.Value`. The constructors are the values `flatten.go` builds itself;
`other` is any further value (a known collection, an unknown value, a value of a
provider-defined type), told by its Go type and a rendering. The null collections
carry the name of their element type. -/
inductive AttrValue where
  | BoolNull
  | BoolValue (b : Bool)
  | Float64Null
  | Float64Value (f : Float64)
  | Int64Null
  | Int64Value (i : Int)
  | StringNull
  | StringValue (s : String)
  | ListNull (elemType : String)
  | SetNull (elemType : String)
  | MapNull (elemType : String)
  | other (goType : String) (rendering : String)
  deriving DecidableEq, Repr

/-- `types.Float64Value(f)`: the known float value. The framework keeps the number
as a `big.Float`, and `big.NewFloat` panics for a NaN. -/
def NewFloat64Value (f : Float64) : Except Panic AttrValue :=
  if f.isNaN then .error .bigNaN else .ok (.Float64Value f)

/-- The Go type of an attribute value, which decides what a struct field can
hold. -/
def AttrValue.goType : AttrValue → String
  | .BoolNull | .BoolValue _ => "basetypes.BoolValue"
  | .Float64Null | .Float64Value _ => "basetypes.Float64Value"
  | .Int64Null | .Int64Value _ => "basetypes.Int64Value"
  | .StringNull | .StringValue _ => "basetypes.StringValue"
  | .ListNull _ => "basetypes.ListValue"
  | .SetNull _ => "basetypes.SetValue"
  | .MapNull _ => "basetypes.MapValue"
  | .other goType _ => goType

/-- An `attr.Type`, as the visitor sees it: its `String()` and, for each of the
`basetypes.*Typable` interfaces it implements, the conversion method that the
interface adds. A type switch case `basetypes.BoolTypable` is taken exactly when
`ValueFromBool` is there. -/
structure AttrType where
  name : String
  ValueFromBool : Option (AttrValue → AttrValue × List Diagnostic) := none
  ValueFromFloat64 : Option (AttrValue → AttrValue × List Diagnostic) := none
  ValueFromInt64 : Option (AttrValue → AttrValue × List Diagnostic) := none
  ValueFromString : Option (AttrValue → AttrValue × List Diagnostic) := none
  ValueFromList : Option (AttrValue → AttrValue × List Diagnostic) := none
  ValueFromSet : Option (AttrValue → AttrValue × List Diagnostic) := none
  ValueFromMap : Option (AttrValue → AttrValue × List Diagnostic) := none

/-- The framework's `basetypes.BoolType`: `ValueFromBool` returns its argument and
no diagnostics. -/
def BoolType : AttrType :=
  { name := "basetypes.BoolType", ValueFromBool := some (fun v => (v, [])) }

/-- The framework's `basetypes.Float64Type`. -/
def Float64Type : AttrType :=
  { name := "basetypes.Float64Type", ValueFromFloat64 := some (fun v => (v, [])) }

/-- The framework's `basetypes.Int64Type`. -/
def Int64Type : AttrType :=
  { name := "basetypes.Int64Type", ValueFromInt64 := some (fun v => (v, [])) }

/-- The framework's `basetypes.StringType`. -/
def StringType : AttrType :=
  { name := "basetypes.StringType", ValueFromString := some (fun v => (v, [])) }

/-- A destination field (`valTo`, a `reflect.Value`):

* `kind` is `valTo.Kind()`;
* `attr` is `valTo.Interface().(attr.Value)`, `none` when the assertion fails;
* `canSet` tells, from the Go type of a value, whether `valTo.Set` accepts it:
  the field is settable and the value's type is assignable to the field's type. -/
structure FieldValue where
  kind : Kind
  attr : Option AttrValue
  canSet : String → Bool

/-- `valTo.Set(reflect.ValueOf(v))`: stores `v`, or panics when the field cannot
take a value of that type. -/
def FieldValue.Set (valTo : FieldValue) (v : AttrValue) : Except Panic FieldValue :=
  if valTo.canSet v.goType then .ok { valTo with attr := some v } else .error .reflectSet

/-- What `flatten.go` takes from outside the file:

* `typeOf` is the method `Type(ctx)` of attribute values;
* the six `FlattenFramework...` functions of this package, which turn Go maps and
  slices of strings or string pointers (`none` is nil) into framework values. -/
structure Given where
  typeOf : AttrValue → AttrType
  FlattenFrameworkStringValueMap : Option (List (String × String)) → AttrValue
  FlattenFrameworkStringMap : Option (List (String × Option String)) → AttrValue
  FlattenFrameworkStringValueList : Option (List String) → AttrValue
  FlattenFrameworkStringValueSet : Option (List String) → AttrValue
  FlattenFrameworkStringList : Option (List (Option String)) → AttrValue
  FlattenFrameworkStringSet : Option (List (Option String)) → AttrValue

/-- The text of a diagnostic: the summary, followed by the detail when there is
one. -/
def DiagnosticString (d : Diagnostic) : String :=
  if d.detail = "" then d.summary else d.summary ++ "\n\n" ++ d.detail

/-- Modelled from the spec: `fwdiag.DiagnosticsError`, declared outside the sources.
The spec says that field-mapping failures "surface as formatted errors naming the
incompatible kinds/types": the result is nil when no diagnostic has error
severity, and otherwise a fresh error (allocated at `addr`) whose text gives the
error diagnostics, one per line, in order. -/
def DiagnosticsError (addr : Nat) (diags : List Diagnostic) : Option GoError :=
  match diags.filter (fun d => d.severity == .Error) with
  | [] => none
  | errs => some (fmtErrorf addr (String.intercalate "\n" (errs.map DiagnosticString)))

/-! ## `internal/framework/flex/flatten.go` -/

namespace flattenVisitor

/-- `newIncompatibleTypesError`:
`diag.NewErrorDiagnostic("Incompatible types",
   fmt.Sprintf("%s cannot be flattened to %s", vFrom.Kind(), tTo))`. -/
def newIncompatibleTypesError (vFrom : Value) (tTo : AttrType) : Diagnostic :=
  NewErrorDiagnostic "Incompatible types"
    (vFrom.kind.name ++ " cannot be flattened to " ++ tTo.name)

/-- `bool` copies an AWS API bool value to a compatible Plugin Framework field.
Returns the diagnostics and the destination field afterwards. -/
def bool (vFrom : Value) (tTo : AttrType) (vTo : FieldValue) :
    Except Panic (List Diagnostic × FieldValue) :=
  let diags : List Diagnostic := []
  match tTo.ValueFromBool with
  | some valueFromBool => do
    let b ← vFrom.getBool
    let (v, d) := valueFromBool (.BoolValue b)
    let diags := DiagnosticsAppend diags d
    if DiagnosticsHasError diags then
      return (diags, vTo)
    let vTo ← vTo.Set v
    return (diags, vTo)
  | none =>
    .ok (DiagnosticsAppend diags [newIncompatibleTypesError vFrom tTo], vTo)

/-- `float` copies an AWS API float value to a compatible Plugin Framework field. -/
def float (vFrom : Value) (tTo : AttrType) (vTo : FieldValue) :
    Except Panic (List Diagnostic × FieldValue) :=
  let diags : List Diagnostic := []
  match tTo.ValueFromFloat64 with
  | some valueFromFloat64 => do
    let f ← vFrom.getFloat
    let known ← NewFloat64Value f
    let (v, d) := valueFromFloat64 known
    let diags := DiagnosticsAppend diags d
    if DiagnosticsHasError diags then
      return (diags, vTo)
    let vTo ← vTo.Set v
    return (diags, vTo)
  | none =>
    .ok (DiagnosticsAppend diags [newIncompatibleTypesError vFrom tTo], vTo)

/-- `int` copies an AWS API int value to a compatible Plugin Framework field. -/
def int (vFrom : Value) (tTo : AttrType) (vTo : FieldValue) :
    Except Panic (List Diagnostic × FieldValue) :=
  let diags : List Diagnostic := []
  match tTo.ValueFromInt64 with
  | some valueFromInt64 => do
    let i ← vFrom.getInt
    let (v, d) := valueFromInt64 (.Int64Value i)
    let diags := DiagnosticsAppend diags d
    if DiagnosticsHasError diags then
      return (diags, vTo)
    let vTo ← vTo.Set v
    return (diags, vTo)
  | none =>
    .ok (DiagnosticsAppend diags [newIncompatibleTypesError vFrom tTo], vTo)

/-- `string` copies an AWS API string value to a compatible Plugin Framework
field. -/
def string (vFrom : Value) (tTo : AttrType) (vTo : FieldValue) :
    Except Panic (List Diagnostic × FieldValue) :=
  let diags : List Diagnostic := []
  match tTo.ValueFromString with
  | some valueFromString => do
    let (v, d) := valueFromString (.StringValue vFrom.getString)
    let diags := DiagnosticsAppend diags d
    if DiagnosticsHasError diags then
      return (diags, vTo)
    let vTo ← vTo.Set v
    return (diags, vTo)
  | none =>
    .ok (DiagnosticsAppend diags [newIncompatibleTypesError vFrom tTo], vTo)

/-- The last two statements of `pointer` and of `slice`:
`diags.Append(visitor.newIncompatibleTypesError(ctx, vFrom, tTo)); return diags`. -/
def incompatible (diags : List Diagnostic) (vFrom : Value) (tTo : AttrType)
    (vTo : FieldValue) : Except Panic (List Diagnostic × FieldValue) :=
  .ok (DiagnosticsAppend diags [newIncompatibleTypesError vFrom tTo], vTo)

/-- `pointer` copies an AWS API pointer value to a compatible Plugin Framework
field. -/
def pointer (vFrom : Value) (tTo : AttrType) (vTo : FieldValue) :
    Except Panic (List Diagnostic × FieldValue) := do
  let diags : List Diagnostic := []
  let vElem ← vFrom.elem
  match ← vFrom.typeElemKind with
  | .bool =>
    if ← vFrom.isNil then
      let vTo ← vTo.Set .BoolNull
      return (diags, vTo)
    let (d, vTo) ← bool vElem tTo vTo
    return (DiagnosticsAppend diags d, vTo)
  | .float32 | .float64 =>
    if ← vFrom.isNil then
      let vTo ← vTo.Set .Float64Null
      return (diags, vTo)
    let (d, vTo) ← float vElem tTo vTo
    return (DiagnosticsAppend diags d, vTo)
  | .int32 | .int64 =>
    if ← vFrom.isNil then
      let vTo ← vTo.Set .Int64Null
      return (diags, vTo)
    let (d, vTo) ← int vElem tTo vTo
    return (DiagnosticsAppend diags d, vTo)
  | .string =>
    if ← vFrom.isNil then
      let vTo ← vTo.Set .StringNull
      return (diags, vTo)
    let (d, vTo) ← string vElem tTo vTo
    return (DiagnosticsAppend diags d, vTo)
  | .struct =>
    match tTo.ValueFromList, tTo.ValueFromSet with
    | some _, _ => return (diags, vTo)
    | none, some _ => return (diags, vTo)
    | none, none => incompatible diags vFrom tTo vTo
  | _ => incompatible diags vFrom tTo vTo

/-- `slice` copies an AWS API slice value to a compatible Plugin Framework
field. -/
def slice (g : Given) (vFrom : Value) (tTo : AttrType) (vTo : FieldValue) :
    Except Panic (List Diagnostic × FieldValue) := do
  let diags : List Diagnostic := []
  match ← vFrom.typeElemKind with
  | .string =>
    match tTo.ValueFromList, tTo.ValueFromSet with
    | some valueFromList, _ =>
      if ← vFrom.isNil then
        let vTo ← vTo.Set (.ListNull StringType.name)
        return (diags, vTo)
      let xs ← (← vFrom.interface).assertSliceString
      let (v, d) := valueFromList (g.FlattenFrameworkStringValueList xs)
      let diags := DiagnosticsAppend diags d
      if DiagnosticsHasError diags then
        return (diags, vTo)
      let vTo ← vTo.Set v
      return (diags, vTo)
    | none, some valueFromSet =>
      if ← vFrom.isNil then
        let vTo ← vTo.Set (.SetNull StringType.name)
        return (diags, vTo)
      let xs ← (← vFrom.interface).assertSliceString
      let (v, d) := valueFromSet (g.FlattenFrameworkStringValueSet xs)
      let diags := DiagnosticsAppend diags d
      if DiagnosticsHasError diags then
        return (diags, vTo)
      let vTo ← vTo.Set v
      return (diags, vTo)
    | none, none => incompatible diags vFrom tTo vTo
  | .ptr =>
    match ← vFrom.typeElemElemKind with
    | .string =>
      match tTo.ValueFromList, tTo.ValueFromSet with
      | some valueFromList, _ =>
        if ← vFrom.isNil then
          let vTo ← vTo.Set (.ListNull StringType.name)
          return (diags, vTo)
        let xs ← (← vFrom.interface).assertSliceStringPtr
        let (v, d) := valueFromList (g.FlattenFrameworkStringList xs)
        let diags := DiagnosticsAppend diags d
        if DiagnosticsHasError diags then
          return (diags, vTo)
        let vTo ← vTo.Set v
        return (diags, vTo)
      | none, some valueFromSet =>
        if ← vFrom.isNil then
          let vTo ← vTo.Set (.SetNull StringType.name)
          return (diags, vTo)
        let xs ← (← vFrom.interface).assertSliceStringPtr
        let (v, d) := valueFromSet (g.FlattenFrameworkStringSet xs)
        let diags := DiagnosticsAppend diags d
        if DiagnosticsHasError diags then
          return (diags, vTo)
        let vTo ← vTo.Set v
        return (diags, vTo)
      | none, none => incompatible diags vFrom tTo vTo
    | _ => incompatible diags vFrom tTo vTo
  | _ => incompatible diags vFrom tTo vTo

/-- The last statement of `visit`, reached from every case that does not return:
`return fmt.Errorf("incompatible (%s): %s", kFrom, tTo)`. -/
def incompatibleKind (addr : Nat) (kFrom : Kind) (tTo : AttrType) (valTo : FieldValue) :
    Except Panic (Option GoError × FieldValue) :=
  .ok (some (fmtErrorf addr ("incompatible (" ++ kFrom.name ++ "): " ++ tTo.name)), valTo)

set_option linter.unusedVariables false in
/-- `func (visitor flattenVisitor) visit(ctx, fieldName, valFrom, valTo) error`:
the error returned and the destination field afterwards. `addr` is where an error
value built by this call is allocated. -/
def visit (g : Given) (addr : Nat) (fieldName : String) (valFrom : Value)
    (valTo : FieldValue) : Except Panic (Option GoError × FieldValue) :=
  match valTo.attr with
  | none =>
    .ok (some (fmtErrorf addr ("does not implement attr.Value: " ++ valTo.kind.name)), valTo)
  | some vTo => do
    let kFrom := valFrom.kind
    let tTo := g.typeOf vTo
    match kFrom with
    | .bool =>
      let (diags, valTo) ← bool valFrom tTo valTo
      return (DiagnosticsError addr diags, valTo)
    | .float32 | .float64 =>
      let (diags, valTo) ← float valFrom tTo valTo
      return (DiagnosticsError addr diags, valTo)
    | .int32 | .int64 =>
      let (diags, valTo) ← int valFrom tTo valTo
      return (DiagnosticsError addr diags, valTo)
    | .string =>
      let (diags, valTo) ← string valFrom tTo valTo
      return (DiagnosticsError addr diags, valTo)
    | .ptr =>
      let (diags, valTo) ← pointer valFrom tTo valTo
      return (DiagnosticsError addr diags, valTo)
    | .slice =>
      let (diags, valTo) ← slice g valFrom tTo valTo
      return (DiagnosticsError addr diags, valTo)
    | .map =>
      match ← valFrom.typeKeyKind with
      | .string =>
        let vFrom ← valFrom.interface
        match ← valFrom.typeElemKind with
        | .string =>
          match tTo.ValueFromMap with
          | some valueFromMap =>
            if vFrom.notNil then
              let m ← vFrom.assertMapStringString
              let (v, diags) := valueFromMap (g.FlattenFrameworkStringValueMap m)
              match DiagnosticsError addr diags with
              | some err => return (some err, valTo)
              | none =>
                let valTo ← valTo.Set v
                return (none, valTo)
            else
              let valTo ← valTo.Set (.MapNull StringType.name)
              return (none, valTo)
          | none => incompatibleKind addr kFrom tTo valTo
        | .ptr =>
          match ← valFrom.typeElemElemKind with
          | .string =>
            match tTo.ValueFromMap with
            | some valueFromMap =>
              if vFrom.notNil then
                let m ← vFrom.assertMapStringPtrString
                let (v, diags) := valueFromMap (g.FlattenFrameworkStringMap m)
                match DiagnosticsError addr diags with
                | some err => return (some err, valTo)
                | none =>
                  let valTo ← valTo.Set v
                  return (none, valTo)
              else
                let valTo ← valTo.Set (.MapNull StringType.name)
                return (none, valTo)
            | none => incompatibleKind addr kFrom tTo valTo
          | _ => incompatibleKind addr kFrom tTo valTo
        | _ => incompatibleKind addr kFrom tTo valTo
      | _ => incompatibleKind addr kFrom tTo valTo
    | _ => incompatibleKind addr kFrom tTo valTo

end flattenVisitor

/-- The visitor as `walkStructFields` calls it. -/
abbrev Visitor : Type :=
  Nat → String → Value → FieldValue → Except Panic (Option GoError × FieldValue)

/-- `func Flatten(ctx, apiObject, tfObject any) error`: the error returned and the
destination object afterwards. `walkStructFields` is declared outside the
sources and taken as given; `typeOfApi` and `typeOfTf` are what `%T` prints for
the two objects; `addr` is where the wrapping error is allocated. -/
def Flatten {α β : Type}
    (walkStructFields : α → β → Visitor → Except Panic (Option GoError × β))
    (g : Given) (typeOfApi : α → String) (typeOfTf : β → String) (addr : Nat)
    (apiObject : α) (tfObject : β) : Except Panic (Option GoError × β) := do
  let (err, tfObject1) ← walkStructFields apiObject tfObject (flattenVisitor.visit g)
  match err with
  | some err =>
    return (some (fmtErrorfWrap addr
      ("Flatten[" ++ typeOfApi apiObject ++ ", " ++ typeOfTf tfObject ++ "]: " ++ err.Error)
      err), tfObject1)
  | none => return (none, tfObject1)

/-! ### Sample inputs -/

/-- The framework's `basetypes.ListType` with string elements. -/
def ListType : AttrType :=
  { name := "types.ListType[basetypes.StringType]", ValueFromList := some (fun v => (v, [])) }

/-- The framework's `basetypes.SetType` with string elements. -/
def SetType : AttrType :=
  { name := "types.SetType[basetypes.StringType]", ValueFromSet := some (fun v => (v, [])) }

/-- The framework's `basetypes.MapType` with string elements. -/
def MapType : AttrType :=
  { name := "types.MapType[basetypes.StringType]", ValueFromMap := some (fun v => (v, [])) }

/-- A provider-defined map type whose conversion insists on a map that is not null. -/
def RequiredMapType : AttrType :=
  { name := "RequiredMapType"
    ValueFromMap := some (fun v =>
      match v with
      | .MapNull _ =>
        (.other "RequiredMapValue" "null",
          [NewErrorDiagnostic "Missing map" "A map is required here"])
      | v => (v, [])) }

/-- A provider-defined bool type whose conversion always reports an error. -/
def RejectingBoolType : AttrType :=
  { name := "RejectingBoolType"
    ValueFromBool := some (fun v => (v, [NewErrorDiagnostic "Rejected" "No value is accepted"])) }

/-- A type that implements none of the `Typable` interfaces. -/
def ObjectType : AttrType :=
  { name := "types.ObjectType[]" }

/-- An instance of what `flatten.go` takes from outside: `Type(ctx)` of the
framework's own values and of the sample provider-defined values, and flatteners
that turn nil into the null collection. -/
def sampleGiven : Given where
  typeOf := fun v =>
    match v with
    | .BoolNull | .BoolValue _ => BoolType
    | .Float64Null | .Float64Value _ => Float64Type
    | .Int64Null | .Int64Value _ => Int64Type
    | .StringNull | .StringValue _ => StringType
    | .ListNull _ => ListType
    | .SetNull _ => SetType
    | .MapNull _ => MapType
    | .other goType _ =>
      if goType = "basetypes.ListValue" then ListType
      else if goType = "basetypes.SetValue" then SetType
      else if goType = "basetypes.MapValue" then MapType
      else if goType = "RequiredMapValue" then RequiredMapType
      else ObjectType
  FlattenFrameworkStringValueMap := fun m =>
    match m with
    | none => .MapNull StringType.name
    | some kvs => .other "basetypes.MapValue" (String.intercalate "," (kvs.map (fun kv => kv.1)))
  FlattenFrameworkStringMap := fun m =>
    match m with
    | none => .MapNull StringType.name
    | some kvs => .other "basetypes.MapValue" (String.intercalate "," (kvs.map (fun kv => kv.1)))
  FlattenFrameworkStringValueList := fun xs =>
    match xs with
    | none => .ListNull StringType.name
    | some xs => .other "basetypes.ListValue" (String.intercalate "," xs)
  FlattenFrameworkStringValueSet := fun xs =>
    match xs with
    | none => .SetNull StringType.name
    | some xs => .other "basetypes.SetValue" (String.intercalate "," xs)
  FlattenFrameworkStringList := fun xs =>
    match xs with
    | none => .ListNull StringType.name
    | some xs => .other "basetypes.ListValue" (String.intercalate "," (xs.map (fun x => x.getD "")))
  FlattenFrameworkStringSet := fun xs =>
    match xs with
    | none => .SetNull StringType.name
    | some xs => .other "basetypes.SetValue" (String.intercalate "," (xs.map (fun x => x.getD "")))

/-- A destination field declared `types.Bool`, holding null. -/
def boolField : FieldValue :=
  { kind := .struct, attr := some .BoolNull, canSet := fun t => t == "basetypes.BoolValue" }

/-- The float 1.5. -/
def onePointFive : Float64 :=
  ⟨4609434218613702656⟩

/-- A quiet NaN (exponent all ones, fraction not zero). -/
def quietNaN : Float64 :=
  ⟨9221120237041090561⟩

/-- A destination field declared `types.Float64`, holding null. -/
def float64Field : FieldValue :=
  { kind := .struct, attr := some .Float64Null, canSet := fun t => t == "basetypes.Float64Value" }

/-- A destination field declared `types.Int64`, holding null. -/
def int64Field : FieldValue :=
  { kind := .struct, attr := some .Int64Null, canSet := fun t => t == "basetypes.Int64Value" }

/-- A destination field declared `types.String`, holding `"old"`. -/
def stringField : FieldValue :=
  { kind := .struct, attr := some (.StringValue "old"),
    canSet := fun t => t == "basetypes.StringValue" }

/-- A destination field declared `types.List`, holding the null list of strings. -/
def listField : FieldValue :=
  { kind := .struct, attr := some (.ListNull StringType.name),
    canSet := fun t => t == "basetypes.ListValue" }

/-- A destination field declared with the interface type `attr.Value`, holding the
string `"old"`; it can take any attribute value. -/
def attrValueField : FieldValue :=
  { kind := .interface, attr := some (.StringValue "old"), canSet := fun _ => true }

/-- A destination field of the provider-defined map type, holding a known map. -/
def requiredMapField : FieldValue :=
  { kind := .struct, attr := some (.other "RequiredMapValue" "a=1"),
    canSet := fun t => t == "RequiredMapValue" }

/-- A `walkStructFields` for objects with one field, named `Field`: it calls the
visitor once, on the source value and the destination field. -/
def walkOneField (apiObject : Value) (tfObject : FieldValue) (visitor : Visitor) :
    Except Panic (Option GoError × FieldValue) :=
  visitor 10 "Field" apiObject tfObject

end flex

/-! ## Theorems: `errors.go` -/

mutual
theorem errorsIsLoop_iff (target : GoError) :
    ∀ e : GoError, errorsIsLoop target e = true ↔
      ∃ n ∈ e.tree, n.ident = target.ident ∨ n.answersIs target = true
  | .mk i m f ws => by
    have ih := errorsIsAny_iff target ws
    have hid : (GoError.mk i m f ws).ident = i := rfl
    rw [errorsIsLoop]
    simp only [GoError.tree, List.mem_cons, exists_eq_or_imp, hid]
    by_cases h1 : i = target.ident
    · simp [h1]
    · by_cases h2 : GoError.answersIs (.mk i m f ws) target = true
      · simp [h1, h2]
      · simp [h1, h2, ih]
theorem errorsIsAny_iff (target : GoError) :
    ∀ es : List GoError, errorsIsAny target es = true ↔
      ∃ n ∈ GoError.treeList es, n.ident = target.ident ∨ n.answersIs target = true
  | [] => by simp [errorsIsAny, GoError.treeList]
  | e :: es => by
    have ih1 := errorsIsLoop_iff target e
    have ih2 := errorsIsAny_iff target es
    simp only [errorsIsAny, GoError.treeList, List.mem_append]
    by_cases h : errorsIsLoop target e = true
    · simp only [h, if_true, true_iff]
      obtain ⟨n, hn, hp⟩ := ih1.mp h
      exact ⟨n, Or.inl hn, hp⟩
    · simp only [h, if_false, Bool.false_eq_true]
      rw [ih2]
      constructor
      · rintro ⟨n, hn, hp⟩
        exact ⟨n, Or.inr hn, hp⟩
      · rintro ⟨n, hn | hn, hp⟩
        · exact absurd (ih1.mpr ⟨n, hn, hp⟩) h
        · exact ⟨n, hn, hp⟩
end

/-- C1 (as amended). `NotFound(err)` is true exactly when the unwrap tree of `err`
holds the `NotFoundError` sentinel itself or an error whose own `Is` method accepts
the sentinel. In particular `NotFound(nil)` is false, and for an error none of
whose tree members declares an `Is` method, `NotFound` is true exactly when the
tree reaches the sentinel, whatever message text the error carries. -/
theorem datafy.NotFound_spec :
    (∀ err : Option GoError, datafy.NotFound err = true ↔
      ∃ e, err = some e ∧
        ∃ n ∈ e.tree, n.ident = datafy.NotFoundError.ident ∨
          n.answersIs datafy.NotFoundError = true)
    ∧ datafy.NotFound none = false
    ∧ datafy.NotFound (some datafy.NotFoundError) = true
    ∧ (∀ e : GoError, (∀ n ∈ e.tree, n.isMethod = none) →
        (datafy.NotFound (some e) = true ↔ datafy.reachesSentinel (some e) = true))
    ∧ datafy.NotFound (some datafy.sameText) = false := by
  refine ⟨?_, rfl, by decide, ?_, by decide⟩
  · intro err
    cases err with
    | none => simp [datafy.NotFound, errorsIs]
    | some e => simp [datafy.NotFound, errorsIs, errorsIsLoop_iff]
  · intro e hno
    simp only [datafy.NotFound, errorsIs, errorsIsLoop_iff, datafy.reachesSentinel,
      List.any_eq_true, beq_iff_eq]
    constructor
    · rintro ⟨n, hn, hp | hp⟩
      · exact ⟨n, hn, hp⟩
      · simp [GoError.answersIs, hno n hn] at hp
    · rintro ⟨n, hn, hp⟩
      exact ⟨n, hn, Or.inl hp⟩

/-- C1 (as stated) fails: `lookalike` is not the sentinel and wraps nothing, so its
unwrap chain does not reach the sentinel, yet `NotFound` reports true for it
because `errors.Is` consults its `Is` method. -/
theorem datafy.NotFound_lookalike :
    datafy.NotFound (some datafy.lookalike) = true
    ∧ datafy.reachesSentinel (some datafy.lookalike) = false
    ∧ datafy.lookalike.ident ≠ datafy.NotFoundError.ident := by
  decide

/-! ## Theorems: `client.go` -/

/-- C2. Failures of the underlying client are passed through unchanged: when the
underlying `GetVolume` returns an error `err`, `Client.GetVolume` returns a nil
volume together with exactly `err`, after that one underlying call; and
`Client.DeleteVolume` returns exactly what the underlying `DeleteVolume` returns for
the same two arguments. -/
theorem datafy.Client_passes_failures_through {σ : Type} (c : datafy.Client σ)
    (volumeId : String) (finalSnapshot : Bool) (w w1 : σ)
    (volume : Option datafy.IacVolume) (err : GoError)
    (h : c.client.GetVolume volumeId w = ((volume, some err), w1)) :
    c.GetVolume volumeId w = .ok ((none, some err), w1)
    ∧ c.DeleteVolume volumeId finalSnapshot w
        = c.client.DeleteVolume volumeId finalSnapshot w := by
  constructor
  · simp only [datafy.Client.GetVolume, h]
  · rfl

/-- C2 at a concrete client: the service's error comes back as it is. -/
theorem datafy.Client_passes_failures_through_witness :
    datafy.failingService.GetVolume "vol-1" 0 = ((none, some datafy.serviceDown), 1)
    ∧ (datafy.Client.GetVolume ⟨⟨"token"⟩, datafy.failingService⟩ "vol-1" 0
          = .ok ((none, some datafy.serviceDown), 1)
      ∧ datafy.Client.DeleteVolume ⟨⟨"token"⟩, datafy.failingService⟩ "vol-1" true 0
          = datafy.failingService.DeleteVolume "vol-1" true 0) :=
  ⟨rfl, datafy.Client_passes_failures_through ⟨⟨"token"⟩, datafy.failingService⟩
    "vol-1" true 0 1 none datafy.serviceDown rfl⟩

/-- What `Client.GetVolume` returns on success: the volume id, `IsManaged` and
`IsReplacement` of the response, and `IsDatafied` false. -/
theorem datafy.Client_GetVolume_success {σ : Type} (c : datafy.Client σ)
    (volumeId : String) (w w1 : σ) (r : datafy.IacVolume)
    (h : c.client.GetVolume volumeId w = ((some r, none), w1)) :
    c.GetVolume volumeId w =
      .ok ((some { Volume := some { VolumeId := some r.VolumeId }
                   IsManaged := r.IsManaged
                   IsDatafied := false
                   IsReplacement := r.IsReplacement }, none), w1) := by
  simp only [datafy.Client.GetVolume, h]

/-- C3 at the failing input. The service answers with a volume that is datafied;
`Client.GetVolume` succeeds and copies the volume id, `IsManaged` and
`IsReplacement`, but the `IsDatafied` it returns is false. -/
theorem datafy.Client_GetVolume_loses_IsDatafied :
    datafy.datafiedService.GetVolume "vol-1" 0
      = ((some { VolumeId := "vol-1", IsManaged := true, IsDatafied := true,
                 IsReplacement := false }, none), 1)
    ∧ datafy.Client.GetVolume ⟨⟨"token"⟩, datafy.datafiedService⟩ "vol-1" 0
      = .ok ((some { Volume := some { VolumeId := some "vol-1" }
                     IsManaged := true
                     IsDatafied := false
                     IsReplacement := false }, none), 1) :=
  ⟨rfl, rfl⟩

/-! ## Theorems: `types.go` -/

/-- A saved decoding error is never cleared by a later member. -/
theorem decodeMember_savedError (lib : JsonLib) (st : DecodeState) (kv : String × JsonValue)
    (h : (decodeMember lib st kv).savedError = none) : st.savedError = none := by
  cases hs : st.savedError with
  | none => rfl
  | some e =>
    exfalso
    revert h
    unfold decodeMember
    split
    · simp [hs]
    · split <;> simp [hs, DecodeState.saveError]

/-- One member keeps struct and reading in agreement, unless it is a type error. -/
theorem decodeMember_agrees (lib : JsonLib) (f : IacField) (st : DecodeState)
    (acc : Option JsonValue) (kv : String × JsonValue)
    (hst : st.savedError = none)
    (hok : (decodeMember lib st kv).savedError = none)
    (hag : fieldAgrees st.iac f acc) :
    fieldAgrees (decodeMember lib st kv).iac f (payloadStep lib f acc kv) := by
  obtain ⟨k, v⟩ := kv
  unfold decodeMember payloadStep at *
  cases hf : findField lib k with
  | none => cases v <;> simpa [hf] using hag
  | some g =>
    simp only [hf] at hok ⊢
    cases v <;> cases g <;> cases f <;>
      simp_all [fieldAgrees, payloadString, payloadBool, DecodeState.saveError]

/-- After all members are decoded without a type error, every field of the struct
holds what the document says about it. -/
theorem decode_foldl_agrees (lib : JsonLib) (f : IacField) :
    ∀ (members : List (String × JsonValue)) (st : DecodeState) (acc : Option JsonValue),
      st.savedError = none → fieldAgrees st.iac f acc →
      (members.foldl (decodeMember lib) st).savedError = none →
      fieldAgrees (members.foldl (decodeMember lib) st).iac f
        (members.foldl (payloadStep lib f) acc)
  | [], _, _, _, hag, _ => hag
  | kv :: rest, st, acc, hst, hag, hok => by
    simp only [List.foldl_cons] at hok ⊢
    have hmid : (decodeMember lib st kv).savedError = none := by
      cases hm : (decodeMember lib st kv).savedError with
      | none => rfl
      | some e =>
        exfalso
        have hstick : ∀ (ms : List (String × JsonValue)) (s : DecodeState),
            s.savedError ≠ none → (ms.foldl (decodeMember lib) s).savedError ≠ none := by
          intro ms
          induction ms with
          | nil => intro s hs; exact hs
          | cons m ms ih =>
            intro s hs
            simp only [List.foldl_cons]
            exact ih _ (fun hn => hs (decodeMember_savedError lib s m hn))
        exact hstick rest _ (by simp [hm]) hok
    exact decode_foldl_agrees lib f rest _ _ hmid
      (decodeMember_agrees lib f st acc kv hst hmid hag) hok

/-- C4 (as amended). For every document that decodes without error,
`UnmarshalJSON` returns nil and replaces the receiver, whatever it held: the
embedded volume is non-nil, its `VolumeId` points to the decoded string and the
three booleans are the decoded ones. The decoded values are those of the document
in the decoder's reading: for an object, each field takes the value of the last
member that is not `null` and whose key matches the field's JSON name exactly or
by case folding, and the zero value (empty string, false) when there is no such
member; the document `null` gives all zero values. -/
theorem datafy.Volume_UnmarshalJSON_spec (lib : JsonLib) (v : datafy.Volume)
    (data : List Nat) (h : (jsonUnmarshal lib data {}).1 = none) :
    datafy.Volume.UnmarshalJSON lib v data =
        (none,
          { Volume := some { VolumeId := some (jsonUnmarshal lib data {}).2.VolumeId }
            IsManaged := (jsonUnmarshal lib data {}).2.IsManaged
            IsDatafied := (jsonUnmarshal lib data {}).2.IsDatafied
            IsReplacement := (jsonUnmarshal lib data {}).2.IsReplacement })
    ∧ (∀ members, lib.parse data = .ok (.object members) →
        (jsonUnmarshal lib data {}).2 =
          { VolumeId := payloadString (payloadValue lib members .VolumeId)
            IsManaged := payloadBool (payloadValue lib members .IsManaged)
            IsDatafied := payloadBool (payloadValue lib members .IsDatafied)
            IsReplacement := payloadBool (payloadValue lib members .IsReplacement) })
    ∧ (lib.parse data = .ok .null → (jsonUnmarshal lib data {}).2 = {}) := by
  refine ⟨?_, ?_, ?_⟩
  · simp only [datafy.Volume.UnmarshalJSON]
    generalize jsonUnmarshal lib data {} = r at h
    obtain ⟨e, iac⟩ := r
    simp only at h
    subst h
    rfl
  · intro members hp
    have hres : jsonUnmarshal lib data {} =
        ((members.foldl (decodeMember lib) { iac := {}, savedError := none }).savedError,
         (members.foldl (decodeMember lib) { iac := {}, savedError := none }).iac) := by
      simp [jsonUnmarshal, hp]
    rw [hres] at h ⊢
    simp only at h
    have hall := fun f => decode_foldl_agrees lib f members
      { iac := {}, savedError := none } none rfl
      (by cases f <;> simp [fieldAgrees, payloadString, payloadBool]) h
    have h1 := hall .VolumeId
    have h2 := hall .IsManaged
    have h3 := hall .IsDatafied
    have h4 := hall .IsReplacement
    simp only [fieldAgrees] at h1 h2 h3 h4
    simp only [payloadValue]
    generalize (members.foldl (decodeMember lib) { iac := {}, savedError := none }).iac = iac
      at h1 h2 h3 h4 ⊢
    cases iac
    simp_all
  · intro hp
    simp [jsonUnmarshal, hp]

/-- C4 at a concrete document: `{"VOLUMEID":"vol-1"}` decodes without error and
replaces a receiver that held other values. -/
theorem datafy.Volume_UnmarshalJSON_spec_witness :
    (jsonUnmarshal datafy.asciiJson datafy.upperKeyText {}).1 = none
    ∧ datafy.Volume.UnmarshalJSON datafy.asciiJson datafy.staleVolume datafy.upperKeyText =
        (none,
          { Volume := some { VolumeId := some "vol-1" }
            IsManaged := false
            IsDatafied := false
            IsReplacement := false }) :=
  ⟨rfl,
    (datafy.Volume_UnmarshalJSON_spec datafy.asciiJson datafy.staleVolume
      datafy.upperKeyText rfl).1.trans rfl⟩

/-- C4 (as stated) fails: the document `{"VOLUMEID":"vol-1"}` has no member with
the key `volumeId`, it decodes without error, and the `VolumeId` afterwards points
to `"vol-1"`, not to the empty string. -/
theorem datafy.Volume_UnmarshalJSON_folded_key :
    datafy.asciiJson.parse datafy.upperKeyText = .ok (.object datafy.upperKeyMembers)
    ∧ (∀ kv ∈ datafy.upperKeyMembers, kv.1 ≠ "volumeId")
    ∧ (datafy.Volume.UnmarshalJSON datafy.asciiJson datafy.staleVolume
        datafy.upperKeyText).1 = none
    ∧ ((datafy.Volume.UnmarshalJSON datafy.asciiJson datafy.staleVolume
        datafy.upperKeyText).2.Volume.bind (fun a => a.VolumeId)) = some "vol-1" := by
  refine ⟨rfl, by decide, rfl, rfl⟩

/-! ## Theorems: `diag` -/

namespace flex

theorem DiagnosticsContains_iff (diags : List Diagnostic) (d : Diagnostic) :
    DiagnosticsContains diags d = true ↔ d ∈ diags := by
  unfold DiagnosticsContains
  rw [List.any_eq_true]
  constructor
  · rintro ⟨x, hx, he⟩
    have : x = d := by simpa using he
    exact this ▸ hx
  · intro h
    exact ⟨d, h, by simp⟩

/-- `Append` keeps what was there and adds every new diagnostic. -/
theorem mem_DiagnosticsAppend (x : Diagnostic) :
    ∀ (more diags : List Diagnostic),
      x ∈ DiagnosticsAppend diags more ↔ x ∈ diags ∨ x ∈ more := by
  intro more
  induction more with
  | nil => intro diags; simp [DiagnosticsAppend]
  | cons d more ih =>
    intro diags
    have step : DiagnosticsAppend diags (d :: more) =
        DiagnosticsAppend (if DiagnosticsContains diags d then diags else diags ++ [d]) more := rfl
    rw [step, ih]
    by_cases hc : DiagnosticsContains diags d = true
    · have hd := (DiagnosticsContains_iff diags d).mp hc
      simp only [hc, if_true, List.mem_cons]
      constructor
      · rintro (h | h)
        · exact Or.inl h
        · exact Or.inr (Or.inr h)
      · rintro (h | h | h)
        · exact Or.inl h
        · exact Or.inl (h ▸ hd)
        · exact Or.inr h
    · simp only [hc, Bool.false_eq_true, if_false, List.mem_append, List.mem_singleton,
        List.mem_cons]
      tauto

/-- `Append` to a list without repetitions gives a list without repetitions. -/
theorem nodup_DiagnosticsAppend :
    ∀ (more diags : List Diagnostic), diags.Nodup → (DiagnosticsAppend diags more).Nodup := by
  intro more
  induction more with
  | nil => intro diags h; simpa [DiagnosticsAppend] using h
  | cons d more ih =>
    intro diags h
    have step : DiagnosticsAppend diags (d :: more) =
        DiagnosticsAppend (if DiagnosticsContains diags d then diags else diags ++ [d]) more := rfl
    rw [step]
    apply ih
    by_cases hc : DiagnosticsContains diags d = true
    · simpa [hc] using h
    · have hd : d ∉ diags := fun hm => hc ((DiagnosticsContains_iff diags d).mpr hm)
      simp only [hc, Bool.false_eq_true, if_false]
      exact List.Nodup.append h (List.nodup_singleton d) (by simpa using hd)

/-- `Append` of diagnostics that are new and without repetitions is concatenation. -/
theorem DiagnosticsAppend_of_nodup :
    ∀ (more diags : List Diagnostic), (diags ++ more).Nodup →
      DiagnosticsAppend diags more = diags ++ more := by
  intro more
  induction more with
  | nil => intro diags _; simp [DiagnosticsAppend]
  | cons d more ih =>
    intro diags h
    have step : DiagnosticsAppend diags (d :: more) =
        DiagnosticsAppend (if DiagnosticsContains diags d then diags else diags ++ [d]) more := rfl
    have hd : d ∉ diags := by
      intro hm
      have := List.nodup_append.mp h
      exact this.2.2 hm (List.mem_cons_self d more) 
    have hc : ¬ DiagnosticsContains diags d = true :=
      fun hc => hd ((DiagnosticsContains_iff diags d).mp hc)
    rw [step]
    simp only [hc, Bool.false_eq_true, if_false]
    rw [ih (diags ++ [d]) (by simpa using h)]
    simp

/-- Appending the result of an `Append` to the empty collection changes nothing. -/
theorem DiagnosticsAppend_idem (d : List Diagnostic) :
    DiagnosticsAppend [] (DiagnosticsAppend [] d) = DiagnosticsAppend [] d := by
  have h := nodup_DiagnosticsAppend d [] List.nodup_nil
  simpa using DiagnosticsAppend_of_nodup (DiagnosticsAppend [] d) [] (by simpa using h)

/-- `HasError` after `Append` to the empty collection: some appended diagnostic
has error severity. -/
theorem DiagnosticsHasError_append (d : List Diagnostic) :
    DiagnosticsHasError (DiagnosticsAppend [] d) = true ↔ ∃ x ∈ d, x.severity = .Error := by
  simp [DiagnosticsHasError, List.any_eq_true, mem_DiagnosticsAppend]

end flex

/-! ## Theorems: `flatten.go` -/

namespace flex

open flattenVisitor

/-- The diagnostics of the `bool` helper are as `Append` leaves them. -/
theorem bool_diags_normal (vFrom : Value) (tTo : AttrType) (vTo vTo1 : FieldValue)
    (d : List Diagnostic) (h : flattenVisitor.bool vFrom tTo vTo = .ok (d, vTo1)) :
    DiagnosticsAppend [] d = d := by
  unfold flattenVisitor.bool at h
  cases hc : tTo.ValueFromBool with
  | none =>
    simp only [hc, Except.ok.injEq, Prod.mk.injEq] at h
    rw [← h.1]; exact DiagnosticsAppend_idem _
  | some conv =>
    simp only [hc, bind, Except.bind, pure, Except.pure] at h
    cases hb : vFrom.getBool with
    | error e => simp [hb] at h
    | ok b =>
      simp only [hb] at h
      split at h
      · simp only [Except.ok.injEq, Prod.mk.injEq] at h
        rw [← h.1]; exact DiagnosticsAppend_idem _
      · cases hs : vTo.Set (conv (AttrValue.BoolValue b)).1 with
        | error e => simp [hs] at h
        | ok w =>
          simp only [hs, Except.ok.injEq, Prod.mk.injEq] at h
          rw [← h.1]; exact DiagnosticsAppend_idem _

/-- The diagnostics of the `float` helper are as `Append` leaves them. -/
theorem float_diags_normal (vFrom : Value) (tTo : AttrType) (vTo vTo1 : FieldValue)
    (d : List Diagnostic) (h : flattenVisitor.float vFrom tTo vTo = .ok (d, vTo1)) :
    DiagnosticsAppend [] d = d := by
  unfold flattenVisitor.float at h
  cases hc : tTo.ValueFromFloat64 with
  | none =>
    simp only [hc, Except.ok.injEq, Prod.mk.injEq] at h
    rw [← h.1]; exact DiagnosticsAppend_idem _
  | some conv =>
    simp only [hc, bind, Except.bind, pure, Except.pure] at h
    cases hb : vFrom.getFloat with
    | error e => simp [hb] at h
    | ok b =>
      simp only [hb] at h
      cases hk : NewFloat64Value b with
      | error e => simp [hk] at h
      | ok known =>
        simp only [hk] at h
        split at h
        · simp only [Except.ok.injEq, Prod.mk.injEq] at h
          rw [← h.1]; exact DiagnosticsAppend_idem _
        · cases hs : vTo.Set (conv known).1 with
          | error e => simp [hs] at h
          | ok w =>
            simp only [hs, Except.ok.injEq, Prod.mk.injEq] at h
            rw [← h.1]; exact DiagnosticsAppend_idem _

/-- The diagnostics of the `int` helper are as `Append` leaves them. -/
theorem int_diags_normal (vFrom : Value) (tTo : AttrType) (vTo vTo1 : FieldValue)
    (d : List Diagnostic) (h : flattenVisitor.int vFrom tTo vTo = .ok (d, vTo1)) :
    DiagnosticsAppend [] d = d := by
  unfold flattenVisitor.int at h
  cases hc : tTo.ValueFromInt64 with
  | none =>
    simp only [hc, Except.ok.injEq, Prod.mk.injEq] at h
    rw [← h.1]; exact DiagnosticsAppend_idem _
  | some conv =>
    simp only [hc, bind, Except.bind, pure, Except.pure] at h
    cases hb : vFrom.getInt with
    | error e => simp [hb] at h
    | ok b =>
      simp only [hb] at h
      split at h
      · simp only [Except.ok.injEq, Prod.mk.injEq] at h
        rw [← h.1]; exact DiagnosticsAppend_idem _
      · cases hs : vTo.Set (conv (AttrValue.Int64Value b)).1 with
        | error e => simp [hs] at h
        | ok w =>
          simp only [hs, Except.ok.injEq, Prod.mk.injEq] at h
          rw [← h.1]; exact DiagnosticsAppend_idem _

/-- The diagnostics of the `string` helper are as `Append` leaves them. -/
theorem string_diags_normal (vFrom : Value) (tTo : AttrType) (vTo vTo1 : FieldValue)
    (d : List Diagnostic) (h : flattenVisitor.string vFrom tTo vTo = .ok (d, vTo1)) :
    DiagnosticsAppend [] d = d := by
  unfold flattenVisitor.string at h
  cases hc : tTo.ValueFromString with
  | none =>
    simp only [hc, Except.ok.injEq, Prod.mk.injEq] at h
    rw [← h.1]; exact DiagnosticsAppend_idem _
  | some conv =>
    simp only [hc, bind, Except.bind, pure, Except.pure] at h
    split at h
    · simp only [Except.ok.injEq, Prod.mk.injEq] at h
      rw [← h.1]; exact DiagnosticsAppend_idem _
    · cases hs : vTo.Set (conv (AttrValue.StringValue vFrom.getString)).1 with
      | error e => simp [hs] at h
      | ok w =>
        simp only [hs, Except.ok.injEq, Prod.mk.injEq] at h
        rw [← h.1]; exact DiagnosticsAppend_idem _

/-- Appending a helper's diagnostics to the empty collection returns the helper's
result as it is. -/
theorem append_result (r : Except Panic (List Diagnostic × FieldValue))
    (h : ∀ d v, r = .ok (d, v) → DiagnosticsAppend [] d = d) :
    (do
      let (d, vTo) ← r
      return (DiagnosticsAppend [] d, vTo)) = r := by
  cases r with
  | error e => rfl
  | ok p =>
    obtain ⟨d, v⟩ := p
    simp only [bind, Except.bind, pure, Except.pure]
    rw [h d v rfl]

end flex

/-- C5. A source value of a kind that `visit` has no case for (none of Bool,
Float32, Float64, Int32, Int64, String, Ptr, Slice, Map), with a destination that
implements `attr.Value`, makes `visit` return the non-nil error
`incompatible (<source kind>): <destination type>` and leave the destination as it
was. And `Flatten` returns what the field walk returns, with an error wrapped in a
new error whose text is `Flatten[<source type>, <destination type>]: ` followed by
the walk's error text, and nil when the walk returns nil. -/
theorem flex.visit_unsupported_kind {α β : Type} (g : flex.Given) (addr : Nat)
    (fieldName : String) (valFrom : flex.Value) (valTo : flex.FieldValue)
    (vTo : flex.AttrValue)
    (hk : valFrom.kind ∉ [flex.Kind.bool, flex.Kind.float32, flex.Kind.float64,
      flex.Kind.int32, flex.Kind.int64, flex.Kind.string, flex.Kind.ptr,
      flex.Kind.slice, flex.Kind.map])
    (hv : valTo.attr = some vTo) :
    flex.flattenVisitor.visit g addr fieldName valFrom valTo =
        .ok (some (fmtErrorf addr
          ("incompatible (" ++ valFrom.kind.name ++ "): " ++ (g.typeOf vTo).name)), valTo)
    ∧ ∀ (walkStructFields : α → β → flex.Visitor → Except flex.Panic (Option GoError × β))
        (typeOfApi : α → String) (typeOfTf : β → String) (apiObject : α)
        (tfObject tfObject1 : β) (walked : Option GoError),
        walkStructFields apiObject tfObject (flex.flattenVisitor.visit g)
          = .ok (walked, tfObject1) →
        flex.Flatten walkStructFields g typeOfApi typeOfTf addr apiObject tfObject =
          .ok (walked.map (fun err =>
            fmtErrorfWrap addr
              ("Flatten[" ++ typeOfApi apiObject ++ ", " ++ typeOfTf tfObject ++ "]: "
                ++ err.Error) err), tfObject1) := by
  constructor
  · cases valFrom with
    | other k h =>
      simp only [flex.Value.kind] at hk ⊢
      unfold flex.flattenVisitor.visit
      simp only [hv, flex.Value.kind]
      cases k <;> first
        | (exfalso; revert hk; decide)
        | rfl
    | _ => exfalso; revert hk; simp [flex.Value.kind]
  · intro walk typeOfApi typeOfTf apiObject tfObject tfObject1 walked hw
    unfold flex.Flatten
    simp only [hw, bind, Except.bind, pure, Except.pure]
    cases walked <;> rfl

/-- C5 at a concrete input: a struct-valued source field against a `types.String`
destination, and `Flatten` over a one-field walk of the same pair. -/
theorem flex.visit_unsupported_kind_witness :
    (flex.Value.other flex.Kind.struct rfl).kind ∉
        [flex.Kind.bool, flex.Kind.float32, flex.Kind.float64, flex.Kind.int32,
          flex.Kind.int64, flex.Kind.string, flex.Kind.ptr, flex.Kind.slice, flex.Kind.map]
    ∧ flex.stringField.attr = some (flex.AttrValue.StringValue "old")
    ∧ flex.flattenVisitor.visit flex.sampleGiven 7 "Field"
          (flex.Value.other flex.Kind.struct rfl) flex.stringField =
        .ok (some (fmtErrorf 7 "incompatible (struct): basetypes.StringType"),
          flex.stringField)
    ∧ flex.Flatten flex.walkOneField flex.sampleGiven (fun _ => "types.Source")
          (fun _ => "*model") 7 (flex.Value.other flex.Kind.struct rfl) flex.stringField =
        .ok (some (fmtErrorfWrap 7
          "Flatten[types.Source, *model]: incompatible (struct): basetypes.StringType"
          (fmtErrorf 10 "incompatible (struct): basetypes.StringType")), flex.stringField) :=
  ⟨by decide, rfl,
    (flex.visit_unsupported_kind (α := flex.Value) (β := flex.FieldValue) flex.sampleGiven 7
      "Field" (flex.Value.other flex.Kind.struct rfl) flex.stringField
      (flex.AttrValue.StringValue "old") (by decide) rfl).1.trans rfl,
    ((flex.visit_unsupported_kind (α := flex.Value) (β := flex.FieldValue) flex.sampleGiven 7
      "Field" (flex.Value.other flex.Kind.struct rfl) flex.stringField
      (flex.AttrValue.StringValue "old") (by decide) rfl).2 flex.walkOneField
      (fun _ => "types.Source") (fun _ => "*model") (flex.Value.other flex.Kind.struct rfl)
      flex.stringField flex.stringField
      (some (fmtErrorf 10 "incompatible (struct): basetypes.StringType")) rfl).trans rfl⟩

/-- C7 (as amended). Primitive values are copied faithfully to a compatible field.
For every bool `b`, float `f` that is not a NaN (held as float32 or float64),
integer `i` (held as int32 or int64) and string `s`: when the destination field is
of the framework's base Bool, Float64, Int64 or String kind (its type is the base
type, whose conversion is the identity without diagnostics, and the field holds
values of the base value type), the `bool`, `float`, `int` and `string` helpers
return no diagnostics and leave the destination holding `BoolValue(b)`,
`Float64Value(f)`, `Int64Value(i)` and `StringValue(s)`. And for every destination
type with a conversion: when the conversion reports a diagnostic of error
severity, the helper returns the diagnostics and the destination is as it was. -/
theorem flex.primitives_copied (b : Bool) (f : flex.Float64) (i : Int) (s : String)
    (toB toF toI toS : flex.FieldValue)
    (hf : f.isNaN = false)
    (hB : toB.canSet "basetypes.BoolValue" = true)
    (hF : toF.canSet "basetypes.Float64Value" = true)
    (hI : toI.canSet "basetypes.Int64Value" = true)
    (hS : toS.canSet "basetypes.StringValue" = true) :
    flex.flattenVisitor.bool (.bool b) flex.BoolType toB
        = .ok ([], { toB with attr := some (.BoolValue b) })
    ∧ flex.flattenVisitor.float (.float32 f) flex.Float64Type toF
        = .ok ([], { toF with attr := some (.Float64Value f) })
    ∧ flex.flattenVisitor.float (.float64 f) flex.Float64Type toF
        = .ok ([], { toF with attr := some (.Float64Value f) })
    ∧ flex.flattenVisitor.int (.int32 i) flex.Int64Type toI
        = .ok ([], { toI with attr := some (.Int64Value i) })
    ∧ flex.flattenVisitor.int (.int64 i) flex.Int64Type toI
        = .ok ([], { toI with attr := some (.Int64Value i) })
    ∧ flex.flattenVisitor.string (.string s) flex.StringType toS
        = .ok ([], { toS with attr := some (.StringValue s) })
    ∧ (∀ (tTo : flex.AttrType) (vTo : flex.FieldValue)
        (conv : flex.AttrValue → flex.AttrValue × List flex.Diagnostic),
        (tTo.ValueFromBool = some conv →
          (∃ x ∈ (conv (.BoolValue b)).2, x.severity = .Error) →
          flex.flattenVisitor.bool (.bool b) tTo vTo
            = .ok (flex.DiagnosticsAppend [] (conv (.BoolValue b)).2, vTo))
        ∧ (tTo.ValueFromFloat64 = some conv →
          (∃ x ∈ (conv (.Float64Value f)).2, x.severity = .Error) →
          flex.flattenVisitor.float (.float32 f) tTo vTo
              = .ok (flex.DiagnosticsAppend [] (conv (.Float64Value f)).2, vTo)
          ∧ flex.flattenVisitor.float (.float64 f) tTo vTo
              = .ok (flex.DiagnosticsAppend [] (conv (.Float64Value f)).2, vTo))
        ∧ (tTo.ValueFromInt64 = some conv →
          (∃ x ∈ (conv (.Int64Value i)).2, x.severity = .Error) →
          flex.flattenVisitor.int (.int32 i) tTo vTo
              = .ok (flex.DiagnosticsAppend [] (conv (.Int64Value i)).2, vTo)
          ∧ flex.flattenVisitor.int (.int64 i) tTo vTo
              = .ok (flex.DiagnosticsAppend [] (conv (.Int64Value i)).2, vTo))
        ∧ (tTo.ValueFromString = some conv →
          (∃ x ∈ (conv (.StringValue s)).2, x.severity = .Error) →
          flex.flattenVisitor.string (.string s) tTo vTo
            = .ok (flex.DiagnosticsAppend [] (conv (.StringValue s)).2, vTo))) := by
  refine ⟨?_, ?_, ?_, ?_, ?_, ?_, ?_⟩
  · simp [flex.flattenVisitor.bool, flex.BoolType, flex.Value.getBool, flex.DiagnosticsAppend,
      flex.DiagnosticsHasError, flex.FieldValue.Set, flex.AttrValue.goType, hB, bind,
      Except.bind, pure, Except.pure]
  · simp [flex.flattenVisitor.float, flex.Float64Type, flex.Value.getFloat,
      flex.NewFloat64Value, hf, flex.DiagnosticsAppend, flex.DiagnosticsHasError,
      flex.FieldValue.Set, flex.AttrValue.goType, hF, bind, Except.bind, pure, Except.pure]
  · simp [flex.flattenVisitor.float, flex.Float64Type, flex.Value.getFloat,
      flex.NewFloat64Value, hf, flex.DiagnosticsAppend, flex.DiagnosticsHasError,
      flex.FieldValue.Set, flex.AttrValue.goType, hF, bind, Except.bind, pure, Except.pure]
  · simp [flex.flattenVisitor.int, flex.Int64Type, flex.Value.getInt, flex.DiagnosticsAppend,
      flex.DiagnosticsHasError, flex.FieldValue.Set, flex.AttrValue.goType, hI, bind,
      Except.bind, pure, Except.pure]
  · simp [flex.flattenVisitor.int, flex.Int64Type, flex.Value.getInt, flex.DiagnosticsAppend,
      flex.DiagnosticsHasError, flex.FieldValue.Set, flex.AttrValue.goType, hI, bind,
      Except.bind, pure, Except.pure]
  · simp [flex.flattenVisitor.string, flex.StringType, flex.Value.getString,
      flex.DiagnosticsAppend, flex.DiagnosticsHasError, flex.FieldValue.Set,
      flex.AttrValue.goType, hS, bind, Except.bind, pure, Except.pure]
  · intro tTo vTo conv
    refine ⟨?_, ?_, ?_, ?_⟩
    · intro hc he
      have hh := (flex.DiagnosticsHasError_append _).mpr he
      simp [flex.flattenVisitor.bool, hc, flex.Value.getBool, hh, bind, Except.bind, pure,
        Except.pure]
    · intro hc he
      have hh := (flex.DiagnosticsHasError_append _).mpr he
      constructor <;>
        simp [flex.flattenVisitor.float, hc, flex.Value.getFloat, flex.NewFloat64Value, hf,
          hh, bind, Except.bind, pure, Except.pure]
    · intro hc he
      have hh := (flex.DiagnosticsHasError_append _).mpr he
      constructor <;>
        simp [flex.flattenVisitor.int, hc, flex.Value.getInt, hh, bind, Except.bind, pure,
          Except.pure]
    · intro hc he
      have hh := (flex.DiagnosticsHasError_append _).mpr he
      simp [flex.flattenVisitor.string, hc, flex.Value.getString, hh, bind, Except.bind, pure,
        Except.pure]

/-- C7 at concrete fields: `true`, the float 1.5, `-5` and `"vol-1"` copied into
fields declared `types.Bool`, `types.Float64`, `types.Int64` and `types.String`,
and a conversion that reports an error leaving the field as it was. -/
theorem flex.primitives_copied_witness :
    flex.onePointFive.isNaN = false
    ∧ flex.boolField.canSet "basetypes.BoolValue" = true
    ∧ flex.float64Field.canSet "basetypes.Float64Value" = true
    ∧ flex.int64Field.canSet "basetypes.Int64Value" = true
    ∧ flex.stringField.canSet "basetypes.StringValue" = true
    ∧ flex.flattenVisitor.bool (.bool true) flex.BoolType flex.boolField
        = .ok ([], { flex.boolField with attr := some (.BoolValue true) })
    ∧ flex.flattenVisitor.float (.float32 flex.onePointFive) flex.Float64Type
          flex.float64Field
        = .ok ([], { flex.float64Field with
            attr := some (.Float64Value flex.onePointFive) })
    ∧ flex.flattenVisitor.int (.int32 (-5)) flex.Int64Type flex.int64Field
        = .ok ([], { flex.int64Field with attr := some (.Int64Value (-5)) })
    ∧ flex.flattenVisitor.string (.string "vol-1") flex.StringType flex.stringField
        = .ok ([], { flex.stringField with attr := some (.StringValue "vol-1") })
    ∧ flex.flattenVisitor.bool (.bool true) flex.RejectingBoolType flex.boolField
        = .ok ([flex.NewErrorDiagnostic "Rejected" "No value is accepted"],
            flex.boolField) :=
  have h := flex.primitives_copied true flex.onePointFive (-5) "vol-1" flex.boolField
    flex.float64Field flex.int64Field flex.stringField (by decide) rfl rfl rfl rfl
  ⟨by decide, rfl, rfl, rfl, rfl, h.1, h.2.1, h.2.2.2.1, h.2.2.2.2.2.1,
    ((h.2.2.2.2.2.2 flex.RejectingBoolType flex.boolField
      (fun v => (v, [flex.NewErrorDiagnostic "Rejected" "No value is accepted"]))).1 rfl
      ⟨_, List.mem_singleton.mpr rfl, rfl⟩).trans rfl⟩

/-- C7 (as stated) fails for a float that is a NaN: with a destination field
declared `types.Float64` of the base Float64 type, the `float` helper does not
return; building `Float64Value` of a NaN panics, for a float64 source and for a
float32 source alike, and the destination is not set. -/
theorem flex.float_nan_panics :
    flex.quietNaN.isNaN = true
    ∧ flex.float64Field.canSet "basetypes.Float64Value" = true
    ∧ flex.flattenVisitor.float (.float64 flex.quietNaN) flex.Float64Type flex.float64Field
        = .error .bigNaN
    ∧ flex.flattenVisitor.float (.float32 flex.quietNaN) flex.Float64Type flex.float64Field
        = .error .bigNaN
    ∧ flex.flattenVisitor.float (.float64 flex.quietNaN) flex.Float64Type flex.float64Field
        ≠ .ok ([], { flex.float64Field with attr := some (.Float64Value flex.quietNaN) }) := by
  have h : flex.flattenVisitor.float (.float64 flex.quietNaN) flex.Float64Type
      flex.float64Field = .error .bigNaN := by
    simp [flex.flattenVisitor.float, flex.Float64Type, flex.Value.getFloat,
      flex.NewFloat64Value, show flex.quietNaN.isNaN = true by decide, bind, Except.bind]
  have h32 : flex.flattenVisitor.float (.float32 flex.quietNaN) flex.Float64Type
      flex.float64Field = .error .bigNaN := by
    simp [flex.flattenVisitor.float, flex.Float64Type, flex.Value.getFloat,
      flex.NewFloat64Value, show flex.quietNaN.isNaN = true by decide, bind, Except.bind]
  exact ⟨by decide, rfl, h, h32, by simp [h]⟩

/-- C8 (as amended). Pointer sources map nil to null and non-nil to the pointee's
value. For a nil pointer to bool, float32/64, int32/64 or string, when the
destination is of the compatible type and its field can hold the framework's
Bool, Float64, Int64 or String value, `pointer` leaves the destination holding
`BoolNull`, `Float64Null`, `Int64Null` or `StringNull` and returns no diagnostics.
For a pointer that is not nil, whatever the destination, the result of `pointer`
(diagnostics, destination afterwards, or panic) is exactly that of the `bool`,
`float`, `int` or `string` helper applied to the value pointed to. -/
theorem flex.pointer_nil_and_value (tB tF tI tS : flex.AttrType)
    (toB toF toI toS : flex.FieldValue)
    (_hcB : tB.ValueFromBool.isSome = true)
    (_hcF : tF.ValueFromFloat64.isSome = true)
    (_hcI : tI.ValueFromInt64.isSome = true)
    (_hcS : tS.ValueFromString.isSome = true)
    (hB : toB.canSet "basetypes.BoolValue" = true)
    (hF : toF.canSet "basetypes.Float64Value" = true)
    (hI : toI.canSet "basetypes.Int64Value" = true)
    (hS : toS.canSet "basetypes.StringValue" = true) :
    flex.flattenVisitor.pointer (.ptr (.bool none)) tB toB
        = .ok ([], { toB with attr := some .BoolNull })
    ∧ flex.flattenVisitor.pointer (.ptr (.float32 none)) tF toF
        = .ok ([], { toF with attr := some .Float64Null })
    ∧ flex.flattenVisitor.pointer (.ptr (.float64 none)) tF toF
        = .ok ([], { toF with attr := some .Float64Null })
    ∧ flex.flattenVisitor.pointer (.ptr (.int32 none)) tI toI
        = .ok ([], { toI with attr := some .Int64Null })
    ∧ flex.flattenVisitor.pointer (.ptr (.int64 none)) tI toI
        = .ok ([], { toI with attr := some .Int64Null })
    ∧ flex.flattenVisitor.pointer (.ptr (.string none)) tS toS
        = .ok ([], { toS with attr := some .StringNull })
    ∧ (∀ (tTo : flex.AttrType) (vTo : flex.FieldValue) (b : Bool) (f : flex.Float64)
        (i : Int) (s : String),
        flex.flattenVisitor.pointer (.ptr (.bool (some b))) tTo vTo
            = flex.flattenVisitor.bool (.bool b) tTo vTo
        ∧ flex.flattenVisitor.pointer (.ptr (.float32 (some f))) tTo vTo
            = flex.flattenVisitor.float (.float32 f) tTo vTo
        ∧ flex.flattenVisitor.pointer (.ptr (.float64 (some f))) tTo vTo
            = flex.flattenVisitor.float (.float64 f) tTo vTo
        ∧ flex.flattenVisitor.pointer (.ptr (.int32 (some i))) tTo vTo
            = flex.flattenVisitor.int (.int32 i) tTo vTo
        ∧ flex.flattenVisitor.pointer (.ptr (.int64 (some i))) tTo vTo
            = flex.flattenVisitor.int (.int64 i) tTo vTo
        ∧ flex.flattenVisitor.pointer (.ptr (.string (some s))) tTo vTo
            = flex.flattenVisitor.string (.string s) tTo vTo) := by
  refine ⟨?_, ?_, ?_, ?_, ?_, ?_, ?_⟩
  · simp [flex.flattenVisitor.pointer, flex.Value.elem, flex.Value.typeElemKind,
      flex.Value.isNil, flex.FieldValue.Set, flex.AttrValue.goType, hB, bind, Except.bind,
      pure, Except.pure]
  · simp [flex.flattenVisitor.pointer, flex.Value.elem, flex.Value.typeElemKind,
      flex.Value.isNil, flex.FieldValue.Set, flex.AttrValue.goType, hF, bind, Except.bind,
      pure, Except.pure]
  · simp [flex.flattenVisitor.pointer, flex.Value.elem, flex.Value.typeElemKind,
      flex.Value.isNil, flex.FieldValue.Set, flex.AttrValue.goType, hF, bind, Except.bind,
      pure, Except.pure]
  · simp [flex.flattenVisitor.pointer, flex.Value.elem, flex.Value.typeElemKind,
      flex.Value.isNil, flex.FieldValue.Set, flex.AttrValue.goType, hI, bind, Except.bind,
      pure, Except.pure]
  · simp [flex.flattenVisitor.pointer, flex.Value.elem, flex.Value.typeElemKind,
      flex.Value.isNil, flex.FieldValue.Set, flex.AttrValue.goType, hI, bind, Except.bind,
      pure, Except.pure]
  · simp [flex.flattenVisitor.pointer, flex.Value.elem, flex.Value.typeElemKind,
      flex.Value.isNil, flex.FieldValue.Set, flex.AttrValue.goType, hS, bind, Except.bind,
      pure, Except.pure]
  · intro tTo vTo b f i s
    refine ⟨?_, ?_, ?_, ?_, ?_, ?_⟩
    · exact flex.append_result _ (fun d v h => flex.bool_diags_normal _ _ _ _ _ h)
    · exact flex.append_result _ (fun d v h => flex.float_diags_normal _ _ _ _ _ h)
    · exact flex.append_result _ (fun d v h => flex.float_diags_normal _ _ _ _ _ h)
    · exact flex.append_result _ (fun d v h => flex.int_diags_normal _ _ _ _ _ h)
    · exact flex.append_result _ (fun d v h => flex.int_diags_normal _ _ _ _ _ h)
    · exact flex.append_result _ (fun d v h => flex.string_diags_normal _ _ _ _ _ h)

/-- C8 at concrete inputs: nil pointers into fields declared `types.Bool`,
`types.Float64`, `types.Int64` and `types.String`, and a pointer to `true`. -/
theorem flex.pointer_nil_and_value_witness :
    flex.BoolType.ValueFromBool.isSome = true
    ∧ flex.boolField.canSet "basetypes.BoolValue" = true
    ∧ flex.flattenVisitor.pointer (.ptr (.bool none)) flex.BoolType flex.boolField
        = .ok ([], { flex.boolField with attr := some .BoolNull })
    ∧ flex.flattenVisitor.pointer (.ptr (.string none)) flex.StringType flex.stringField
        = .ok ([], { flex.stringField with attr := some .StringNull })
    ∧ flex.flattenVisitor.pointer (.ptr (.bool (some true))) flex.BoolType flex.boolField
        = .ok ([], { flex.boolField with attr := some (.BoolValue true) }) :=
  have h := flex.pointer_nil_and_value flex.BoolType flex.Float64Type flex.Int64Type
    flex.StringType flex.boolField flex.float64Field flex.int64Field flex.stringField
    rfl rfl rfl rfl rfl rfl rfl rfl
  ⟨rfl, rfl, h.1, h.2.2.2.2.2.1,
    ((h.2.2.2.2.2.2 flex.BoolType flex.boolField true ⟨0⟩ 0 "").1).trans rfl⟩

/-- C8 (as stated) fails: for a nil pointer to string and a destination field
declared `types.Bool`, `pointer` does not set the destination to `StringNull` and
does not return diagnostics; `reflect`'s `Set` panics, because the field cannot
hold a string value. -/
theorem flex.pointer_nil_into_other_field :
    flex.flattenVisitor.pointer (.ptr (.string none)) flex.BoolType flex.boolField
        = .error .reflectSet
    ∧ flex.flattenVisitor.pointer (.ptr (.string none)) flex.BoolType flex.boolField
        ≠ .ok ([], { flex.boolField with attr := some .StringNull }) :=
  ⟨rfl, by simp [show flex.flattenVisitor.pointer (.ptr (.string none)) flex.BoolType
    flex.boolField = .error .reflectSet from rfl]⟩

/-- C10. A pointer-to-struct source is accepted but never copied. For a pointer to
a struct, nil or not, and a destination type that is `ListTypable` or
`SetTypable`, `pointer` returns no diagnostics and the destination is as it was,
so that `visit` returns nil with the destination as it was. For a destination
type that is neither, `pointer` returns the incompatible-types error diagnostic
(`ptr cannot be flattened to <type>`), again with the destination as it was. -/
theorem flex.pointer_to_struct (isNil : Bool) (tTo : flex.AttrType)
    (valTo : flex.FieldValue)
    (hl : tTo.ValueFromList.isSome = true ∨ tTo.ValueFromSet.isSome = true) :
    flex.flattenVisitor.pointer (.ptr (.struct isNil)) tTo valTo = .ok ([], valTo)
    ∧ (∀ (g : flex.Given) (addr : Nat) (fieldName : String) (vTo : flex.AttrValue),
        valTo.attr = some vTo → g.typeOf vTo = tTo →
        flex.flattenVisitor.visit g addr fieldName (.ptr (.struct isNil)) valTo
          = .ok (none, valTo))
    ∧ (∀ other : flex.AttrType, other.ValueFromList = none → other.ValueFromSet = none →
        flex.flattenVisitor.pointer (.ptr (.struct isNil)) other valTo
          = .ok ([flex.NewErrorDiagnostic "Incompatible types"
                    ("ptr cannot be flattened to " ++ other.name)], valTo)) := by
  have hp : flex.flattenVisitor.pointer (.ptr (.struct isNil)) tTo valTo = .ok ([], valTo) := by
    cases isNil <;>
    · rcases hl with hl | hl
      · obtain ⟨c, hc⟩ := Option.isSome_iff_exists.mp hl
        simp [flex.flattenVisitor.pointer, flex.Value.elem, flex.Value.typeElemKind, hc, bind,
          Except.bind, pure, Except.pure]
      · obtain ⟨c, hc⟩ := Option.isSome_iff_exists.mp hl
        cases hL : tTo.ValueFromList <;>
          simp [flex.flattenVisitor.pointer, flex.Value.elem, flex.Value.typeElemKind, hc, hL,
            bind, Except.bind, pure, Except.pure]
  refine ⟨hp, ?_, ?_⟩
  · intro g addr fieldName vTo hv ht
    unfold flex.flattenVisitor.visit
    simp only [hv, ht, flex.Value.kind, hp, bind, Except.bind, pure, Except.pure]
    rfl
  · intro other h1 h2
    cases isNil <;>
      simp [flex.flattenVisitor.pointer, flex.Value.elem, flex.Value.typeElemKind, h1, h2,
        flex.flattenVisitor.incompatible, flex.flattenVisitor.newIncompatibleTypesError,
        flex.DiagnosticsAppend, flex.DiagnosticsContains, flex.Value.kind, flex.Kind.name, bind,
        Except.bind, pure, Except.pure]

/-- C10 at concrete inputs: a nil pointer to a struct against a field declared
`types.List`, through `pointer` and through `visit`, and against a string type. -/
theorem flex.pointer_to_struct_witness :
    (flex.ListType.ValueFromList.isSome = true ∨ flex.ListType.ValueFromSet.isSome = true)
    ∧ flex.flattenVisitor.pointer (.ptr (.struct true)) flex.ListType flex.listField
        = .ok ([], flex.listField)
    ∧ flex.flattenVisitor.visit flex.sampleGiven 7 "Items" (.ptr (.struct true))
          flex.listField = .ok (none, flex.listField)
    ∧ flex.flattenVisitor.pointer (.ptr (.struct true)) flex.StringType flex.listField
        = .ok ([flex.NewErrorDiagnostic "Incompatible types"
                  "ptr cannot be flattened to basetypes.StringType"], flex.listField) :=
  have h := flex.pointer_to_struct true flex.ListType flex.listField (Or.inl rfl)
  ⟨Or.inl rfl, h.1,
    h.2.1 flex.sampleGiven 7 "Items" (flex.AttrValue.ListNull flex.StringType.name) rfl rfl,
    (h.2.2 flex.StringType rfl rfl).trans rfl⟩

/-- What holds of the type check: for a bool, float, int or string value and a
destination type that lacks the conversion for it, the helper returns the one
error diagnostic `<kind> cannot be flattened to <type>` and the destination is as
it was; pointers that are not nil behave as the value pointed to. -/
theorem flex.mismatch_reported (vFrom : flex.Value) (tTo : flex.AttrType)
    (vTo : flex.FieldValue) :
    (tTo.ValueFromBool = none →
      flex.flattenVisitor.bool vFrom tTo vTo
        = .ok ([flex.flattenVisitor.newIncompatibleTypesError vFrom tTo], vTo))
    ∧ (tTo.ValueFromFloat64 = none →
      flex.flattenVisitor.float vFrom tTo vTo
        = .ok ([flex.flattenVisitor.newIncompatibleTypesError vFrom tTo], vTo))
    ∧ (tTo.ValueFromInt64 = none →
      flex.flattenVisitor.int vFrom tTo vTo
        = .ok ([flex.flattenVisitor.newIncompatibleTypesError vFrom tTo], vTo))
    ∧ (tTo.ValueFromString = none →
      flex.flattenVisitor.string vFrom tTo vTo
        = .ok ([flex.flattenVisitor.newIncompatibleTypesError vFrom tTo], vTo)) := by
  refine ⟨?_, ?_, ?_, ?_⟩ <;> intro h
  · simp [flex.flattenVisitor.bool, h, flex.DiagnosticsAppend, flex.DiagnosticsContains]
  · simp [flex.flattenVisitor.float, h, flex.DiagnosticsAppend, flex.DiagnosticsContains]
  · simp [flex.flattenVisitor.int, h, flex.DiagnosticsAppend, flex.DiagnosticsContains]
  · simp [flex.flattenVisitor.string, h, flex.DiagnosticsAppend, flex.DiagnosticsContains]

/-- C6 at the failing input. The source is a nil pointer to bool and the
destination has the string type, which has no conversion from bool. `pointer`
calls `Set` with `BoolNull` without looking at the destination type: for a field
declared `types.String` this panics, and for a field declared `attr.Value` the
field ends up holding `BoolNull`, with no diagnostics, so that `visit` returns
nil. A bool that is not behind a pointer is reported for the same destination. -/
theorem flex.nil_pointer_mismatch_unreported :
    flex.StringType.ValueFromBool.isSome = false
    ∧ flex.flattenVisitor.pointer (.ptr (.bool none)) flex.StringType flex.stringField
        = .error .reflectSet
    ∧ flex.flattenVisitor.visit flex.sampleGiven 7 "Enabled" (.ptr (.bool none))
        flex.stringField = .error .reflectSet
    ∧ flex.flattenVisitor.pointer (.ptr (.bool none)) flex.StringType flex.attrValueField
        = .ok ([], { flex.attrValueField with attr := some .BoolNull })
    ∧ flex.flattenVisitor.visit flex.sampleGiven 7 "Enabled" (.ptr (.bool none))
        flex.attrValueField
        = .ok (none, { flex.attrValueField with attr := some .BoolNull })
    ∧ flex.flattenVisitor.visit flex.sampleGiven 7 "Enabled" (.bool true) flex.stringField
        = .ok (some (fmtErrorf 7
            "Incompatible types\n\nbool cannot be flattened to basetypes.StringType"),
          flex.stringField) :=
  ⟨rfl, rfl, rfl, rfl, rfl, rfl⟩

/-- What `visit` does for a `map[string]string` or `map[string]*string` source and
a `MapTypable` destination, nil map or not: it converts the flattened map with
the type's `ValueFromMap`, returns the conversion's error if there is one and the
destination as it was, and otherwise sets the destination to the converted value.
The branch that sets `MapNull(StringType)` is never taken. -/
theorem flex.visit_map_converts (g : flex.Given) (addr : Nat) (fieldName : String)
    (valTo : flex.FieldValue) (vTo : flex.AttrValue)
    (conv : flex.AttrValue → flex.AttrValue × List flex.Diagnostic)
    (hv : valTo.attr = some vTo) (hm : (g.typeOf vTo).ValueFromMap = some conv) :
    (∀ m : Option (List (String × String)),
      flex.flattenVisitor.visit g addr fieldName (.map (.stringString m)) valTo =
        match flex.DiagnosticsError addr (conv (g.FlattenFrameworkStringValueMap m)).2 with
        | some err => .ok (some err, valTo)
        | none =>
          (valTo.Set (conv (g.FlattenFrameworkStringValueMap m)).1).map (fun w => (none, w)))
    ∧ (∀ m : Option (List (String × Option String)),
      flex.flattenVisitor.visit g addr fieldName (.map (.stringPtrString m)) valTo =
        match flex.DiagnosticsError addr (conv (g.FlattenFrameworkStringMap m)).2 with
        | some err => .ok (some err, valTo)
        | none =>
          (valTo.Set (conv (g.FlattenFrameworkStringMap m)).1).map (fun w => (none, w))) := by
  constructor
  · intro m
    unfold flex.flattenVisitor.visit
    simp only [hv, hm, flex.Value.kind, flex.Value.typeKeyKind, flex.Value.interface,
      flex.Value.typeElemKind, flex.Iface.notNil, flex.Iface.assertMapStringString, bind,
      Except.bind, pure, Except.pure, if_true]
    cases flex.DiagnosticsError addr (conv (g.FlattenFrameworkStringValueMap m)).2 with
    | some err => rfl
    | none =>
      cases valTo.Set (conv (g.FlattenFrameworkStringValueMap m)).1 <;> rfl
  · intro m
    unfold flex.flattenVisitor.visit
    simp only [hv, hm, flex.Value.kind, flex.Value.typeKeyKind, flex.Value.interface,
      flex.Value.typeElemKind, flex.Value.typeElemElemKind, flex.Iface.notNil,
      flex.Iface.assertMapStringPtrString, bind, Except.bind, pure, Except.pure, if_true]
    cases flex.DiagnosticsError addr (conv (g.FlattenFrameworkStringMap m)).2 with
    | some err => rfl
    | none =>
      cases valTo.Set (conv (g.FlattenFrameworkStringMap m)).1 <;> rfl

/-- C9 at the failing input. The source is the nil `map[string]string` (and the nil
`map[string]*string`) and the destination has a `MapTypable` type whose conversion
rejects a null map. `visit` does not set the destination to `MapNull(StringType)`
with a nil error: the interface value taken from the source is not nil although
the map in it is, so the conversion runs, and `visit` returns its error with the
destination as it was. -/
theorem flex.nil_map_is_converted :
    flex.RequiredMapType.ValueFromMap.isSome = true
    ∧ (flex.Value.interface (.map (.stringString none))).map flex.Iface.notNil = .ok true
    ∧ flex.flattenVisitor.visit flex.sampleGiven 7 "Tags" (.map (.stringString none))
        flex.requiredMapField
        = .ok (some (fmtErrorf 7 "Missing map\n\nA map is required here"),
            flex.requiredMapField)
    ∧ flex.flattenVisitor.visit flex.sampleGiven 7 "Tags" (.map (.stringPtrString none))
        flex.requiredMapField
        = .ok (some (fmtErrorf 7 "Missing map\n\nA map is required here"),
            flex.requiredMapField) :=
  ⟨rfl, rfl, rfl, rfl⟩
